import Mathlib

/-!
# The SDL_mixer sound adapter of Pingus

A shallow embedding of `src/engine/sound/sound_sdl_mixer.cpp` (class
`PingusSoundSDLMixer`) and the properties of its volume, cache and music-handle
management.

## Modelling decisions

* `float` values are the type `Flt`: NaN, the two infinities and the finite values,
  the latter carried as rationals.  Comparisons with NaN are false, as in IEEE 754.
  Every product, sum and difference is rounded to binary32 (`round32`): to the nearest
  value with a 24-bit significand, ties to even, with the subnormal range below
  `2^-126` and overflow to infinity from `2^128`.  The sign of zero is not modelled.
  A value of the program is a `Flt` that `round32` leaves unchanged (`Flt.is_binary32`).
* `std::lround` is `lround : Flt → Int`, the nearest integer with halves away from zero.
  Where the C standard leaves the result unspecified (NaN, an infinity, a value outside
  `long`) it is `LONG_MIN = -2^63`, which is what glibc returns on x86-64, where `long`
  has 64 bits.  The narrowing conversions to `int` and to `Uint8` are taken modulo
  `2^32` and `2^8`.
* SDL_mixer is an external library.  The `Device` is a recorder: it keeps the values the
  adapter applied, the handles that are alive, the number of invalid handle uses, and
  the list of calls in order.  Whatever the library decides on its own (whether a file
  decodes, which channel is free, whether playback starts) is an extra argument of the
  operation that asks for it.
* The globals `globals::sound_enabled`, `globals::music_enabled` are read at each play
  request, so they are arguments of the request; `g_path_manager.complete` is a
  parameter `complete : String → String`.
-/

namespace pingus.sound

/-! ## Floating point values -/

/-- A `float`: NaN, minus infinity, a finite value, plus infinity. -/
inductive Flt where
  | nan
  | ninf
  | fin (q : ℚ)
  | pinf
deriving DecidableEq

/-- Rounding of a rational to the nearest integer, ties to the even one. -/
def roundEven (y : ℚ) : Int :=
  if y - ⌊y⌋ < 1 / 2 then ⌊y⌋
  else if 1 / 2 < y - ⌊y⌋ then ⌊y⌋ + 1
  else if ⌊y⌋ % 2 = 0 then ⌊y⌋ else ⌊y⌋ + 1

/-- The distance between neighbouring binary32 values around `x`: `2^(e - 23)` for
`2^e ≤ |x| < 2^(e + 1)`, and `2^-149` throughout the subnormal range. -/
def ulp (x : ℚ) : ℚ :=
  2 ^ (max (Int.log 2 |x|) (-126) - 23)

/-- The multiple of `ulp x` nearest to `x`, ties to the even multiple. -/
def round_value (x : ℚ) : ℚ :=
  if x = 0 then 0 else roundEven (x / ulp x) * ulp x

/-- Rounding of a rational to binary32, to nearest with ties to even: the result of a
float operation whose exact result is `x`. -/
def round32 (x : ℚ) : Flt :=
  if 340282366920938463463374607431768211456 ≤ |round_value x| then
    (if 0 < x then Flt.pinf else Flt.ninf)
  else Flt.fin (round_value x)

namespace Flt

/-- Whether the value is one a `float` can hold: NaN, an infinity, or a finite value
that rounding to binary32 leaves unchanged. -/
def is_binary32 : Flt → Bool
  | fin q => decide (round32 q = fin q)
  | _ => true

/-- The comparison `a < b` of two floats; false when either is NaN. -/
def lt : Flt → Flt → Bool
  | fin a, fin b => decide (a < b)
  | ninf, fin _ => true
  | ninf, pinf => true
  | fin _, pinf => true
  | _, _ => false

/-- The comparison `a <= b` of two floats; false when either is NaN. -/
def le : Flt → Flt → Bool
  | fin a, fin b => decide (a ≤ b)
  | ninf, ninf => true
  | ninf, fin _ => true
  | ninf, pinf => true
  | fin _, pinf => true
  | pinf, pinf => true
  | _, _ => false

/-- The product `a * b` of two floats. -/
def mul : Flt → Flt → Flt
  | fin a, fin b => round32 (a * b)
  | fin a, pinf => if 0 < a then pinf else if a < 0 then ninf else nan
  | fin a, ninf => if 0 < a then ninf else if a < 0 then pinf else nan
  | pinf, fin b => if 0 < b then pinf else if b < 0 then ninf else nan
  | ninf, fin b => if 0 < b then ninf else if b < 0 then pinf else nan
  | pinf, pinf => pinf
  | ninf, ninf => pinf
  | pinf, ninf => ninf
  | ninf, pinf => ninf
  | _, _ => nan

/-- The sum `a + b` of two floats. -/
def add : Flt → Flt → Flt
  | fin a, fin b => round32 (a + b)
  | fin _, pinf => pinf
  | fin _, ninf => ninf
  | pinf, fin _ => pinf
  | ninf, fin _ => ninf
  | pinf, pinf => pinf
  | ninf, ninf => ninf
  | _, _ => nan

/-- The negation `-a` of a float. -/
def neg : Flt → Flt
  | nan => nan
  | ninf => pinf
  | fin a => fin (-a)
  | pinf => ninf

/-- The difference `a - b` of two floats. -/
def sub (a b : Flt) : Flt := a.add b.neg

end Flt

/-- Rounding of a rational to the nearest integer, halves away from zero. -/
def lroundQ (q : ℚ) : Int :=
  if 0 ≤ q then ⌊q + 1 / 2⌋ else -⌊-q + 1 / 2⌋

/-- The value `LONG_MIN` of a 64-bit `long`. -/
def LONG_MIN : Int := -9223372036854775808

/-- The function `std::lround` on a `float`: the nearest integer, halves away from zero;
`LONG_MIN` for NaN, for an infinity and for a value outside `long`. -/
def lround : Flt → Int
  | Flt.fin q =>
    if LONG_MIN ≤ lroundQ q ∧ lroundQ q ≤ 9223372036854775807 then lroundQ q else LONG_MIN
  | _ => LONG_MIN

/-- The conversion `static_cast<int>` of a `long`: the value modulo `2^32`, signed. -/
def static_cast_int (z : Int) : Int :=
  (z + 2147483648) % 4294967296 - 2147483648

/-- The conversion `static_cast<Uint8>` of a `long`: the value modulo `2^8`. -/
def static_cast_Uint8 (z : Int) : Nat :=
  (z % 256).toNat

/-- The function `std::clamp(v, lo, hi)`: `(v < lo) ? lo : (hi < v) ? hi : v`. -/
def clamp (v lo hi : Flt) : Flt :=
  if v.lt lo then lo else if hi.lt v then hi else v

/-- The helper `clamp01` of the anonymous namespace. -/
def clamp01 (value : Flt) : Flt :=
  clamp value (Flt.fin 0) (Flt.fin 1)

/-! ## Constants -/

/-- The constant `kAudioRate`. -/
def kAudioRate : Int := 44100

/-- The constant `kAudioChannels`. -/
def kAudioChannels : Int := 2

/-- The constant `kAudioChunkSize`. -/
def kAudioChunkSize : Int := 1024

/-- Modelled from the spec: the constant `MIX_MAX_VOLUME` of the SDL_mixer header, which
is not among the sources; the maximum device volume, 128. -/
def MIX_MAX_VOLUME : Int := 128

/-! ## The device -/

/-- An opaque handle of the device (a `Mix_Chunk*` or a `Mix_Music*`), named by the order
in which the device handed it out. -/
abbrev Handle := Nat

/-- The calls the adapter makes to the device, with their arguments and results. -/
inductive Call where
  | openAudio (rate channels chunksize : Int) (ok : Bool)
  | init (mod_ok : Bool)
  | allocateChannels (n : Nat)
  | volume (channel : Int) (v : Int)
  | volumeMusic (v : Int)
  | loadWAV (path : String) (result : Option Handle)
  | playChannel (chunk : Handle) (loops : Int) (result : Int)
  | setPanning (channel : Int) (left right : Nat)
  | loadMUS (file : String) (result : Option Handle)
  | playMusic (music : Handle) (loops : Int) (ok : Bool)
  | haltMusic
  | freeMusic (music : Handle)
  | freeChunk (chunk : Handle)
  | closeAudio
  | quit
deriving DecidableEq

/-- One mixing channel of the device: the chunk last started on it, its volume and its
left and right gains. -/
structure ChannelState where
  chunk : Option Handle
  volume : Int
  left : Nat
  right : Nat
deriving DecidableEq

/-- A channel as SDL_mixer allocates it: idle, full volume, no panning. -/
def ChannelState.fresh : ChannelState :=
  { chunk := none, volume := 128, left := 255, right := 255 }

/-- The state of the device as the adapter can influence it. -/
structure Device where
  channels : List ChannelState
  music_volume : Int
  playing_music : Option Handle
  live_music : List Handle
  live_chunks : List Handle
  next_handle : Handle
  faults : Nat
  calls : List Call
deriving DecidableEq

/-- The device before `Mix_OpenAudio`. -/
def Device.closed : Device :=
  { channels := [], music_volume := 128, playing_music := none, live_music := [],
    live_chunks := [], next_handle := 0, faults := 0, calls := [] }

/-- Replace the element at position `n` of a list by its image under `f`. -/
def modifyAt {α : Type} (f : α → α) : Nat → List α → List α
  | _, [] => []
  | 0, a :: l => f a :: l
  | n + 1, a :: l => a :: modifyAt f n l

/-- The call `Mix_OpenAudio`; `ok` is whether the device could be opened. Returns the
status code. -/
def Mix_OpenAudio (d : Device) (rate channels chunksize : Int) (ok : Bool) : Int × Device :=
  (if ok then 0 else -1, { d with calls := d.calls ++ [Call.openAudio rate channels chunksize ok] })

/-- The call `Mix_Init(MIX_INIT_MOD)`; `mod_ok` is whether MOD support is available.
Returns whether the returned flags contain `MIX_INIT_MOD`. -/
def Mix_Init (d : Device) (mod_ok : Bool) : Bool × Device :=
  (mod_ok, { d with calls := d.calls ++ [Call.init mod_ok] })

/-- The call `Mix_AllocateChannels(n)`. -/
def Mix_AllocateChannels (d : Device) (n : Nat) : Device :=
  { d with channels := List.replicate n ChannelState.fresh,
           calls := d.calls ++ [Call.allocateChannels n] }

/-- The call `Mix_Volume(channel, v)`: channel `-1` means every channel. -/
def Mix_Volume (d : Device) (channel : Int) (v : Int) : Device :=
  { d with
    channels :=
      if channel = -1 then d.channels.map (fun c => { c with volume := v })
      else if 0 ≤ channel then modifyAt (fun c => { c with volume := v }) channel.toNat d.channels
      else d.channels,
    calls := d.calls ++ [Call.volume channel v] }

/-- The call `Mix_VolumeMusic(v)`. -/
def Mix_VolumeMusic (d : Device) (v : Int) : Device :=
  { d with music_volume := v, calls := d.calls ++ [Call.volumeMusic v] }

/-- The call `Mix_LoadWAV(path)`; `ok` is whether the file decodes.  A successful decode
returns a new handle. -/
def Mix_LoadWAV (d : Device) (path : String) (ok : Bool) : Option Handle × Device :=
  if ok then
    (some d.next_handle,
     { d with live_chunks := d.next_handle :: d.live_chunks,
              next_handle := d.next_handle + 1,
              calls := d.calls ++ [Call.loadWAV path (some d.next_handle)] })
  else
    (none, { d with calls := d.calls ++ [Call.loadWAV path none] })

/-- The call `Mix_PlayChannel(-1, chunk, loops)`; `pick` is the channel the device finds
free, anything outside the allocated channels meaning that none is.  Returns the
channel, or `-1`. -/
def Mix_PlayChannel (d : Device) (chunk : Handle) (loops : Int) (pick : Int) : Int × Device :=
  let result : Int := if 0 ≤ pick ∧ pick < d.channels.length then pick else -1
  (result,
   { d with
     channels :=
       if 0 ≤ result then modifyAt (fun c => { c with chunk := some chunk }) result.toNat d.channels
       else d.channels,
     faults := if chunk ∈ d.live_chunks then d.faults else d.faults + 1,
     calls := d.calls ++ [Call.playChannel chunk loops result] })

/-- The call `Mix_SetPanning(channel, left, right)`. -/
def Mix_SetPanning (d : Device) (channel : Int) (left right : Nat) : Device :=
  { d with
    channels :=
      if 0 ≤ channel then
        modifyAt (fun c => { c with left := left, right := right }) channel.toNat d.channels
      else d.channels,
    calls := d.calls ++ [Call.setPanning channel left right] }

/-- The call `Mix_LoadMUS(file)`; `ok` is whether the file decodes.  A successful decode
returns a new handle. -/
def Mix_LoadMUS (d : Device) (file : String) (ok : Bool) : Option Handle × Device :=
  if ok then
    (some d.next_handle,
     { d with live_music := d.next_handle :: d.live_music,
              next_handle := d.next_handle + 1,
              calls := d.calls ++ [Call.loadMUS file (some d.next_handle)] })
  else
    (none, { d with calls := d.calls ++ [Call.loadMUS file none] })

/-- The call `Mix_PlayMusic(music, loops)`; `ok` is whether playback starts.  Using a
handle that is not alive is counted as a fault.  Returns the status code. -/
def Mix_PlayMusic (d : Device) (music : Handle) (loops : Int) (ok : Bool) : Int × Device :=
  (if ok then 0 else -1,
   { d with
     playing_music := if ok then some music else d.playing_music,
     faults := if music ∈ d.live_music then d.faults else d.faults + 1,
     calls := d.calls ++ [Call.playMusic music loops ok] })

/-- The call `Mix_HaltMusic()`. -/
def Mix_HaltMusic (d : Device) : Device :=
  { d with playing_music := none, calls := d.calls ++ [Call.haltMusic] }

/-- The call `Mix_FreeMusic(music)`: the handle stops being alive.  Releasing a handle
that is not alive is counted as a fault. -/
def Mix_FreeMusic (d : Device) (music : Handle) : Device :=
  { d with
    playing_music := if d.playing_music = some music then none else d.playing_music,
    live_music := d.live_music.erase music,
    faults := if music ∈ d.live_music then d.faults else d.faults + 1,
    calls := d.calls ++ [Call.freeMusic music] }

/-- The call `Mix_FreeChunk(chunk)`: the handle stops being alive.  Releasing a handle
that is not alive is counted as a fault. -/
def Mix_FreeChunk (d : Device) (chunk : Handle) : Device :=
  { d with
    live_chunks := d.live_chunks.erase chunk,
    faults := if chunk ∈ d.live_chunks then d.faults else d.faults + 1,
    calls := d.calls ++ [Call.freeChunk chunk] }

/-- The call `Mix_CloseAudio()`. -/
def Mix_CloseAudio (d : Device) : Device :=
  { d with calls := d.calls ++ [Call.closeAudio] }

/-- The call `Mix_Quit()`. -/
def Mix_Quit (d : Device) : Device :=
  { d with calls := d.calls ++ [Call.quit] }

/-! ## The adapter -/

/-- The messages the adapter hands to the logging sink (`log_warn`, `log_error`). -/
inductive LogMsg where
  | warn_mod_unavailable
  | error_load_sound (path : String)
  | error_play_sound (path : String)
  | error_load_music (filename : String)
  | error_play_music (filename : String)
deriving DecidableEq

/-- The class `PingusSoundSDLMixer`: its five members, together with the device it
drives and the messages it has logged. -/
structure PingusSoundSDLMixer where
  m_chunks : List (String × Handle)
  m_music : Option Handle
  m_sound_volume : Flt
  m_music_volume : Flt
  m_master_volume : Flt
  dev : Device
  log : List LogMsg
deriving DecidableEq

/-- The call `m_chunks.emplace(path, chunk)`: inserts unless the key is present. -/
def emplace (m : List (String × Handle)) (path : String) (chunk : Handle) :
    List (String × Handle) :=
  if (m.lookup path).isSome then m else (path, chunk) :: m

/-- The method `to_mix_volume`. -/
def to_mix_volume (volume : Flt) : Int :=
  static_cast_int (lround ((clamp01 volume).mul (Flt.fin (MIX_MAX_VOLUME : ℚ))))

/-- The method `apply_volume_changes`. -/
def apply_volume_changes (s : PingusSoundSDLMixer) : PingusSoundSDLMixer :=
  let sound_volume := to_mix_volume (s.m_sound_volume.mul s.m_master_volume)
  let music_volume := to_mix_volume (s.m_music_volume.mul s.m_master_volume)
  { s with dev := Mix_VolumeMusic (Mix_Volume s.dev (-1) sound_volume) music_volume }

/-- The local `pan` of `apply_panning`. -/
def apply_panning_pan (panning : Flt) : Flt :=
  clamp panning (Flt.fin (-1)) (Flt.fin 1)

/-- The local `left` of `apply_panning`. -/
def apply_panning_left (panning : Flt) : Nat :=
  static_cast_Uint8
    (lround (((Flt.fin 1).sub (apply_panning_pan panning)).mul (Flt.fin (255 / 2))))

/-- The local `right` of `apply_panning`. -/
def apply_panning_right (panning : Flt) : Nat :=
  static_cast_Uint8
    (lround (((Flt.fin 1).add (apply_panning_pan panning)).mul (Flt.fin (255 / 2))))

/-- The method `apply_panning`. -/
def apply_panning (s : PingusSoundSDLMixer) (channel : Int) (panning : Flt) :
    PingusSoundSDLMixer :=
  { s with dev := Mix_SetPanning s.dev channel (apply_panning_left panning)
                    (apply_panning_right panning) }

/-- The block `if (m_music) { Mix_HaltMusic(); Mix_FreeMusic(m_music); m_music = nullptr; }`
with which both the destructor and `real_play_music` let go of the music handle. -/
def halt_and_free_music (s : PingusSoundSDLMixer) : PingusSoundSDLMixer :=
  match s.m_music with
  | some music => { s with dev := Mix_FreeMusic (Mix_HaltMusic s.dev) music, m_music := none }
  | none => s

/-- The constructor; `open_ok` and `mod_ok` are the outcomes of `Mix_OpenAudio` and
`Mix_Init`.  A failed `Mix_OpenAudio` throws. -/
def construct (open_ok mod_ok : Bool) : Except String PingusSoundSDLMixer :=
  let s0 : PingusSoundSDLMixer :=
    { m_chunks := [], m_music := none, m_sound_volume := Flt.fin 1,
      m_music_volume := Flt.fin 1, m_master_volume := Flt.fin 1,
      dev := Device.closed, log := [] }
  match Mix_OpenAudio s0.dev kAudioRate kAudioChannels kAudioChunkSize open_ok with
  | (status, d) =>
    if status < 0 then Except.error "Mix_OpenAudio failed"
    else
      match Mix_Init d mod_ok with
      | (has_mod, d1) =>
        let s1 : PingusSoundSDLMixer :=
          if has_mod then { s0 with dev := d1 }
          else { s0 with dev := d1, log := s0.log ++ [LogMsg.warn_mod_unavailable] }
        Except.ok (apply_volume_changes { s1 with dev := Mix_AllocateChannels s1.dev 32 })

/-- The destructor.  The result keeps the record only so that the device can be
inspected afterwards. -/
def destroy (s : PingusSoundSDLMixer) : PingusSoundSDLMixer :=
  let s1 := halt_and_free_music s
  let d := s1.m_chunks.foldl (fun d entry => Mix_FreeChunk d entry.2) s1.dev
  { s1 with m_chunks := [], dev := Mix_Quit (Mix_CloseAudio d) }

/-- The method `update`. -/
def update (s : PingusSoundSDLMixer) (_delta : Flt) : PingusSoundSDLMixer := s

/-- The method `load_chunk`; `decode_ok` is the outcome of `Mix_LoadWAV`, should it be
called. -/
def load_chunk (s : PingusSoundSDLMixer) (path : String) (decode_ok : Bool) :
    Option Handle × PingusSoundSDLMixer :=
  match s.m_chunks.lookup path with
  | some chunk => (some chunk, s)
  | none =>
    match Mix_LoadWAV s.dev path decode_ok with
    | (none, d) => (none, { s with dev := d, log := s.log ++ [LogMsg.error_load_sound path] })
    | (some chunk, d) => (some chunk, { s with dev := d, m_chunks := emplace s.m_chunks path chunk })

/-- The method `real_play_sound`; `sound_enabled` is the global flag, `decode_ok` and
`pick` are the outcomes of `Mix_LoadWAV` and `Mix_PlayChannel`, should they be called. -/
def real_play_sound (complete : String → String) (s : PingusSoundSDLMixer) (name : String)
    (volume panning : Flt) (sound_enabled decode_ok : Bool) (pick : Int) :
    PingusSoundSDLMixer :=
  if !sound_enabled || s.m_sound_volume.le (Flt.fin 0) || s.m_master_volume.le (Flt.fin 0) then s
  else
    let filename := complete ("sounds/" ++ name ++ ".wav")
    match load_chunk s filename decode_ok with
    | (none, s1) => s1
    | (some chunk, s1) =>
      match Mix_PlayChannel s1.dev chunk 0 pick with
      | (channel, d) =>
        if channel < 0 then
          { s1 with dev := d, log := s1.log ++ [LogMsg.error_play_sound filename] }
        else
          let channel_volume :=
            to_mix_volume ((volume.mul s1.m_sound_volume).mul s1.m_master_volume)
          apply_panning { s1 with dev := Mix_Volume d channel channel_volume } channel panning

/-- The method `real_play_music`; `music_enabled` is the global flag, `load_ok` and
`play_ok` are the outcomes of `Mix_LoadMUS` and `Mix_PlayMusic`, should they be called. -/
def real_play_music (s : PingusSoundSDLMixer) (filename : String) (volume : Flt) (loop : Bool)
    (music_enabled load_ok play_ok : Bool) : PingusSoundSDLMixer :=
  if !music_enabled || s.m_master_volume.le (Flt.fin 0) then s
  else
    let s1 := halt_and_free_music s
    match Mix_LoadMUS s1.dev filename load_ok with
    | (none, d) =>
      { s1 with dev := d, m_music := none, log := s1.log ++ [LogMsg.error_load_music filename] }
    | (some music, d) =>
      let s2 := apply_volume_changes
        { s1 with dev := d, m_music := some music, m_music_volume := clamp01 volume }
      let loops : Int := if loop then -1 else 1
      match Mix_PlayMusic s2.dev music loops play_ok with
      | (status, d2) =>
        if status < 0 then
          { s2 with dev := d2, log := s2.log ++ [LogMsg.error_play_music filename] }
        else { s2 with dev := d2 }

/-- The method `real_stop_music`. -/
def real_stop_music (s : PingusSoundSDLMixer) : PingusSoundSDLMixer :=
  { s with dev := Mix_HaltMusic s.dev }

/-- The method `set_sound_volume`. -/
def set_sound_volume (s : PingusSoundSDLMixer) (volume : Flt) : PingusSoundSDLMixer :=
  apply_volume_changes { s with m_sound_volume := clamp01 volume }

/-- The method `set_music_volume`. -/
def set_music_volume (s : PingusSoundSDLMixer) (volume : Flt) : PingusSoundSDLMixer :=
  apply_volume_changes { s with m_music_volume := clamp01 volume }

/-- The method `set_master_volume`. -/
def set_master_volume (s : PingusSoundSDLMixer) (volume : Flt) : PingusSoundSDLMixer :=
  apply_volume_changes { s with m_master_volume := clamp01 volume }

/-- The method `get_sound_volume`. -/
def get_sound_volume (s : PingusSoundSDLMixer) : Flt := s.m_sound_volume

/-- The method `get_music_volume`. -/
def get_music_volume (s : PingusSoundSDLMixer) : Flt := s.m_music_volume

/-- The method `get_master_volume`. -/
def get_master_volume (s : PingusSoundSDLMixer) : Flt := s.m_master_volume

/-! ## Sequences of requests -/

/-- One request to the adapter, with the outcomes of what the request leaves to the
globals and to the device. -/
inductive Op where
  | update (delta : Flt)
  | play_sound (name : String) (volume panning : Flt) (sound_enabled decode_ok : Bool)
      (pick : Int)
  | play_music (filename : String) (volume : Flt) (loop : Bool)
      (music_enabled load_ok play_ok : Bool)
  | stop_music
  | set_sound_volume (volume : Flt)
  | set_music_volume (volume : Flt)
  | set_master_volume (volume : Flt)

/-- The effect of one request. -/
def step (complete : String → String) (s : PingusSoundSDLMixer) : Op → PingusSoundSDLMixer
  | Op.update delta => update s delta
  | Op.play_sound name volume panning sound_enabled decode_ok pick =>
    real_play_sound complete s name volume panning sound_enabled decode_ok pick
  | Op.play_music filename volume loop music_enabled load_ok play_ok =>
    real_play_music s filename volume loop music_enabled load_ok play_ok
  | Op.stop_music => real_stop_music s
  | Op.set_sound_volume volume => set_sound_volume s volume
  | Op.set_music_volume volume => set_music_volume s volume
  | Op.set_master_volume volume => set_master_volume s volume

/-- The effect of a sequence of requests, in order. -/
def run (complete : String → String) (s : PingusSoundSDLMixer) (ops : List Op) :
    PingusSoundSDLMixer :=
  ops.foldl (step complete) s

/-- The path resolver used in the examples: the identity. -/
def plain_complete (path : String) : String := path

/-! ## Definitions used in the statements -/

/-- The quantized volume in the words of the specification,
`round(clamp01(x) × MAX_VOLUME)` with `MAX_VOLUME = 128`, read as a formula on numbers:
`x` clamped to `[0, 1]`, times 128, then the nearest integer, halves away from zero.
NaN is no number; there the words give no value. -/
def spec_device_volume (x : Flt) : Option Int :=
  match clamp01 x with
  | Flt.fin q => some (lroundQ (q * 128))
  | _ => none

/-- The float `0.3f`. -/
def float_0_3 : Flt := Flt.fin (5033165 / 16777216)

/-- The float `0.4f`. -/
def float_0_4 : Flt := Flt.fin (13421773 / 33554432)

/-- The float `0x1.dffffep-4`, the float just below `0.1171875`. -/
def float_below_15_128 : Flt := Flt.fin (15728639 / 134217728)

/-- The adapter left by a successful construction with MOD support. -/
def example_adapter : PingusSoundSDLMixer :=
  match construct true true with
  | Except.ok s => s
  | Except.error _ =>
    { m_chunks := [], m_music := none, m_sound_volume := Flt.fin 1,
      m_music_volume := Flt.fin 1, m_master_volume := Flt.fin 1,
      dev := Device.closed, log := [] }

/-- The requests that are a volume setter. -/
def is_volume_setter : Op → Bool
  | Op.set_sound_volume _ => true
  | Op.set_music_volume _ => true
  | Op.set_master_volume _ => true
  | _ => false

/-- The requests that reach `apply_volume_changes` in the state `s`: the volume setters,
and a `play_music` that passes its guards (music enabled, master volume above 0) and
whose file decodes. -/
def applies_volume_changes (s : PingusSoundSDLMixer) : Op → Bool
  | Op.set_sound_volume _ => true
  | Op.set_music_volume _ => true
  | Op.set_master_volume _ => true
  | Op.play_music _ _ _ music_enabled load_ok _ =>
    music_enabled && !(s.m_master_volume.le (Flt.fin 0)) && load_ok
  | _ => false

/-- The device volumes are the ones `apply_volume_changes` derives from the stored
scalars: every channel is at `to_mix_volume(sound_volume × master_volume)`, the music
stream at `to_mix_volume(music_volume × master_volume)`, these are the values of the last
two device calls, and wherever the product is not NaN they are the values
`round(clamp01(sound_volume × master_volume) × 128)` and
`round(clamp01(music_volume × master_volume) × 128)` of the specification. -/
def VolumesApplied (s : PingusSoundSDLMixer) : Prop :=
  s.dev.channels.length = 32
  ∧ (∀ ch ∈ s.dev.channels, ch.volume = to_mix_volume (s.m_sound_volume.mul s.m_master_volume))
  ∧ s.dev.music_volume = to_mix_volume (s.m_music_volume.mul s.m_master_volume)
  ∧ (∃ earlier : List Call,
      s.dev.calls = earlier
        ++ [Call.volume (-1) (to_mix_volume (s.m_sound_volume.mul s.m_master_volume)),
            Call.volumeMusic (to_mix_volume (s.m_music_volume.mul s.m_master_volume))])
  ∧ (s.m_sound_volume.mul s.m_master_volume ≠ Flt.nan →
      spec_device_volume (s.m_sound_volume.mul s.m_master_volume)
        = some (to_mix_volume (s.m_sound_volume.mul s.m_master_volume)))
  ∧ (s.m_music_volume.mul s.m_master_volume ≠ Flt.nan →
      spec_device_volume (s.m_music_volume.mul s.m_master_volume)
        = some (to_mix_volume (s.m_music_volume.mul s.m_master_volume)))

/-- The handles the successful `Mix_LoadMUS` calls returned, in order. -/
def loaded_music (calls : List Call) : List Handle :=
  calls.filterMap fun c =>
    match c with
    | Call.loadMUS _ (some h) => some h
    | _ => none

/-- The handles passed to `Mix_FreeMusic`, in order. -/
def freed_music (calls : List Call) : List Handle :=
  calls.filterMap fun c =>
    match c with
    | Call.freeMusic h => some h
    | _ => none

/-- The results of the `Mix_LoadWAV` calls for `path`, in order. -/
def decode_results (path : String) (calls : List Call) : List (Option Handle) :=
  calls.filterMap fun c =>
    match c with
    | Call.loadWAV p r => if p = path then some r else none
    | _ => none

/-- What holds of the adapter and its device between any two requests: the handles alive
on the device are the ones the adapter holds, no handle was used or released while not
alive, the music handles loaded so far are the released ones followed by the one held,
and for each path the decodes are failures followed by the one success that is cached. -/
structure Consistent (s : PingusSoundSDLMixer) : Prop where
  live_music_eq : s.dev.live_music = s.m_music.toList
  no_faults : s.dev.faults = 0
  live_chunks_eq : s.dev.live_chunks = s.m_chunks.map Prod.snd
  live_chunks_nodup : s.dev.live_chunks.Nodup
  live_chunks_lt : ∀ h ∈ s.dev.live_chunks, h < s.dev.next_handle
  loaded_eq : loaded_music s.dev.calls = freed_music s.dev.calls ++ s.dev.live_music
  loaded_nodup : (loaded_music s.dev.calls).Nodup
  loaded_lt : ∀ h ∈ loaded_music s.dev.calls, h < s.dev.next_handle
  decodes : ∀ path : String, ∃ k : Nat,
    decode_results path s.dev.calls
      = List.replicate k none ++ ((s.m_chunks.lookup path).map some).toList

/-- The requests of the examples on music: play `a.ogg` looping, stop, then play `b.ogg`
once, each file decoding, the second playback failing to start. -/
def example_music_ops : List Op :=
  [Op.play_music "a.ogg" (Flt.fin 1) true true true true,
   Op.stop_music,
   Op.play_music "b.ogg" (Flt.fin (1 / 2)) false true true false]

/-- The requests of the example on decoding: `play_sound("explosion")` twice, sound
enabled, the file failing to decode both times. -/
def example_failed_decodes : List Op :=
  [Op.play_sound "explosion" (Flt.fin 1) (Flt.fin 0) true false 0,
   Op.play_sound "explosion" (Flt.fin 1) (Flt.fin 0) true false 0]

/-- The float `1e-10f`. -/
def float_1e_10 : Flt := Flt.fin (14411519 / 144115188075855872)

/-! ## Lemmas on rounding to binary32 -/

theorem roundEven_intCast (n : Int) : roundEven (n : ℚ) = n := by
  unfold roundEven
  simp

theorem roundEven_le {y : ℚ} {N : Int} (h : y ≤ N) : roundEven y ≤ N := by
  have hf0 : ((⌊y⌋ : Int) : ℚ) ≤ N := (Int.floor_le y).trans h
  have hf : ⌊y⌋ ≤ N := by exact_mod_cast hf0
  unfold roundEven
  have hstep : 0 < y - ⌊y⌋ → ⌊y⌋ + 1 ≤ N := by
    intro hpos
    have h1 : ((⌊y⌋ : Int) : ℚ) < N := by linarith
    have h2 : ⌊y⌋ < N := by exact_mod_cast h1
    omega
  split_ifs with h1 h2 h3
  · exact hf
  · exact hstep (by linarith)
  · exact hf
  · exact hstep (by linarith)

theorem le_roundEven {y : ℚ} {N : Int} (h : (N : ℚ) ≤ y) : N ≤ roundEven y := by
  have hf : N ≤ ⌊y⌋ := Int.le_floor.mpr h
  unfold roundEven
  split_ifs <;> omega

theorem abs_roundEven_sub_le (y : ℚ) : |(roundEven y : ℚ) - y| ≤ 1 / 2 := by
  have h1 := Int.floor_le y
  have h2 := Int.lt_floor_add_one y
  unfold roundEven
  rw [abs_le]
  split_ifs with a b c <;> push_cast <;> constructor <;> linarith

theorem ulp_pos (x : ℚ) : 0 < ulp x := by
  unfold ulp
  exact zpow_pos (by norm_num) _

theorem log_eq_of_mem {x : ℚ} {e : Int} (h1 : (2 : ℚ) ^ e ≤ x) (h2 : x < 2 ^ (e + 1)) :
    Int.log 2 x = e := by
  have hx : 0 < x := lt_of_lt_of_le (zpow_pos (by norm_num) _) h1
  have a1 : e ≤ Int.log 2 x := by
    apply (Int.zpow_le_iff_le_log (by norm_num) hx).mp
    simpa using h1
  have a2 : Int.log 2 x < e + 1 := by
    apply (Int.lt_zpow_iff_log_lt (by norm_num) hx).mp
    simpa using h2
  omega

theorem ulp_of_mem {x : ℚ} {e : Int} (he : -126 ≤ e) (h1 : (2 : ℚ) ^ e ≤ x)
    (h2 : x < 2 ^ (e + 1)) : ulp x = 2 ^ (e - 23) := by
  have hx : 0 < x := lt_of_lt_of_le (zpow_pos (by norm_num) _) h1
  unfold ulp
  rw [abs_of_pos hx, log_eq_of_mem h1 h2, max_eq_left he]

/-- Below 256 the spacing is a negative power of two, at most `2^-16`. -/
theorem ulp_of_lt {x : ℚ} (h0 : 0 ≤ x) (h1 : x < 256) :
    ∃ n : ℕ, ulp x * 2 ^ (n + 16) = 1 := by
  have hlog : Int.log 2 |x| ≤ 7 := by
    rcases h0.eq_or_lt with h | h
    · rw [← h]; simp
    · rw [abs_of_pos h]
      have : Int.log 2 x < 8 := by
        apply (Int.lt_zpow_iff_log_lt (by norm_num) h).mp
        norm_num
        linarith
      omega
  have hj : max (Int.log 2 |x|) (-126) - 23 ≤ -16 := by
    have := max_le hlog (by norm_num : (-126 : Int) ≤ 7)
    omega
  refine ⟨(-(max (Int.log 2 |x|) (-126) - 23) - 16).toNat, ?_⟩
  unfold ulp
  have hn : (((-(max (Int.log 2 |x|) (-126) - 23) - 16).toNat + 16 : ℕ) : ℤ)
      = -(max (Int.log 2 |x|) (-126) - 23) := by
    push_cast
    rw [Int.toNat_of_nonneg (by omega)]
    ring
  rw [← zpow_natCast, hn, ← zpow_add₀ (by norm_num : (2 : ℚ) ≠ 0)]
  simp

theorem ulp_le_of_lt {x : ℚ} (h0 : 0 ≤ x) (h1 : x < 256) : ulp x ≤ 1 / 65536 := by
  obtain ⟨n, hn⟩ := ulp_of_lt h0 h1
  have hp : (1 : ℚ) ≤ 2 ^ n := one_le_pow₀ (by norm_num)
  have hu := ulp_pos x
  rw [pow_add] at hn
  nlinarith

/-- Every half-integer is a multiple of the spacing below 256. -/
theorem half_integer_on_grid {x : ℚ} (h0 : 0 ≤ x) (h1 : x < 256) (H : Int) :
    ∃ N : Int, (H : ℚ) / 2 = N * ulp x := by
  obtain ⟨n, hn⟩ := ulp_of_lt h0 h1
  refine ⟨H * 2 ^ (n + 15), ?_⟩
  have h2 : (2 : ℚ) ^ (n + 16) = 2 ^ (n + 15) * 2 := by ring
  rw [h2] at hn
  push_cast
  have : (H : ℚ) * 2 ^ (n + 15) * ulp x = H * (ulp x * (2 ^ (n + 15) * 2)) / 2 := by ring
  rw [this, hn]
  ring

theorem round_value_eq {x : ℚ} (hx : x ≠ 0) :
    round_value x = roundEven (x / ulp x) * ulp x := by
  unfold round_value
  rw [if_neg hx]

/-- Rounding does not cross a half-integer (below 256). -/
theorem round_value_le {x : ℚ} (h0 : 0 ≤ x) (h1 : x < 256) (H : Int) (h : x ≤ (H : ℚ) / 2) :
    round_value x ≤ (H : ℚ) / 2 := by
  rcases eq_or_ne x 0 with hx | hx
  · subst hx
    simpa [round_value] using h
  · obtain ⟨N, hN⟩ := half_integer_on_grid h0 h1 H
    have hu := ulp_pos x
    rw [round_value_eq hx, hN]
    have : x / ulp x ≤ N := by
      rw [div_le_iff₀ hu, ← hN]
      exact h
    have := roundEven_le this
    exact mul_le_mul_of_nonneg_right (by exact_mod_cast this) hu.le

theorem le_round_value {x : ℚ} (h0 : 0 ≤ x) (h1 : x < 256) (H : Int) (h : (H : ℚ) / 2 ≤ x) :
    (H : ℚ) / 2 ≤ round_value x := by
  rcases eq_or_ne x 0 with hx | hx
  · subst hx
    simpa [round_value] using h
  · obtain ⟨N, hN⟩ := half_integer_on_grid h0 h1 H
    have hu := ulp_pos x
    rw [round_value_eq hx, hN]
    have : (N : ℚ) ≤ x / ulp x := by
      rw [le_div_iff₀ hu, ← hN]
      exact h
    have := le_roundEven this
    exact mul_le_mul_of_nonneg_right (by exact_mod_cast this) hu.le

theorem abs_round_value_sub_le (x : ℚ) : |round_value x - x| ≤ ulp x / 2 := by
  have hu := ulp_pos x
  rcases eq_or_ne x 0 with hx | hx
  · subst hx
    simp only [round_value, if_true, sub_self, abs_zero]
    linarith
  · rw [round_value_eq hx]
    have h := abs_roundEven_sub_le (x / ulp x)
    have e : (roundEven (x / ulp x) : ℚ) * ulp x - x
        = ((roundEven (x / ulp x) : ℚ) - x / ulp x) * ulp x := by
      field_simp
    rw [e, abs_mul, abs_of_pos hu]
    nlinarith [abs_nonneg ((roundEven (x / ulp x) : ℚ) - x / ulp x)]

theorem round_value_nonneg {x : ℚ} (h0 : 0 ≤ x) (h1 : x < 256) : 0 ≤ round_value x := by
  have := le_round_value h0 h1 0 (by simpa using h0)
  simpa using this

theorem round32_of_lt {x : ℚ} (h0 : 0 ≤ x) (h1 : x < 256) :
    round32 x = Flt.fin (round_value x) := by
  have hle := round_value_le h0 h1 512 (by norm_num; linarith)
  have hge := round_value_nonneg h0 h1
  unfold round32
  rw [if_neg]
  rw [abs_of_nonneg hge]
  norm_num at hle ⊢
  linarith

theorem ulp_of_mem_half_one {x : ℚ} (h1 : 1 / 2 ≤ x) (h2 : x < 1) : ulp x = 1 / 16777216 := by
  rw [ulp_of_mem (e := -1) (by norm_num) (by norm_num; linarith) (by norm_num; linarith)]
  norm_num

theorem ulp_of_mem_one_two {x : ℚ} (h1 : 1 ≤ x) (h2 : x < 2) : ulp x = 1 / 8388608 := by
  rw [ulp_of_mem (e := 0) (by norm_num) (by norm_num; linarith) (by norm_num; linarith)]
  norm_num

theorem ulp_of_mem_64_128 {x : ℚ} (h1 : 64 ≤ x) (h2 : x < 128) : ulp x = 1 / 131072 := by
  rw [ulp_of_mem (e := 6) (by norm_num) (by norm_num; linarith) (by norm_num; linarith)]
  norm_num

theorem ulp_of_mem_128_256 {x : ℚ} (h1 : 128 ≤ x) (h2 : x < 256) : ulp x = 1 / 65536 := by
  rw [ulp_of_mem (e := 7) (by norm_num) (by norm_num; linarith) (by norm_num; linarith)]
  norm_num

/-! ## Lemmas on `lround` -/

theorem lroundQ_of_nonneg {q : ℚ} (h : 0 ≤ q) : lroundQ q = ⌊q + 1 / 2⌋ := by
  simp [lroundQ, h]

theorem le_lroundQ {q : ℚ} {N : Int} (h0 : 0 ≤ q) (h : (N : ℚ) - 1 / 2 ≤ q) : N ≤ lroundQ q := by
  rw [lroundQ_of_nonneg h0]
  exact Int.le_floor.mpr (by linarith)

theorem lroundQ_le {q : ℚ} {N : Int} (h0 : 0 ≤ q) (h : q < (N : ℚ) + 1 / 2) :
    lroundQ q ≤ N := by
  rw [lroundQ_of_nonneg h0]
  have : ⌊q + 1 / 2⌋ < N + 1 := Int.floor_lt.mpr (by push_cast; linarith)
  omega

theorem lroundQ_bounds {q : ℚ} {N : Int} (h0 : 0 ≤ q) (hN : q ≤ (N : ℚ)) :
    0 ≤ lroundQ q ∧ lroundQ q ≤ N :=
  ⟨le_lroundQ h0 (by push_cast; linarith), lroundQ_le h0 (by linarith)⟩

/-- The integer nearest to a rounded value, against the unrounded value: rounding to
binary32 and then to an integer stays within half a unit plus half a spacing, and the
spacing counts in favour from below, since half-integers are values of the grid. -/
theorem lroundQ_round_value {x : ℚ} (h0 : 0 < x) (h1 : x < 256) :
    x - 1 / 2 + ulp x / 2 ≤ (lroundQ (round_value x) : ℚ)
    ∧ (lroundQ (round_value x) : ℚ) ≤ x + 1 / 2 + ulp x / 2 := by
  have hu := ulp_pos x
  have hA0 := round_value_nonneg h0.le h1
  have herr := abs_le.mp (abs_round_value_sub_le x)
  rw [lroundQ_of_nonneg hA0]
  have hfl := Int.floor_le (round_value x + 1 / 2)
  have hfl' := Int.lt_floor_add_one (round_value x + 1 / 2)
  constructor
  · obtain ⟨N, hN⟩ := half_integer_on_grid h0.le h1 (2 * ⌊round_value x + 1 / 2⌋ + 1)
    have hval := round_value_eq h0.ne'
    have hlt : (roundEven (x / ulp x) : ℚ) * ulp x < N * ulp x := by
      rw [← hval, ← hN]
      push_cast
      linarith
    have hlt' : (roundEven (x / ulp x) : ℚ) < N := lt_of_mul_lt_mul_right hlt hu.le
    have hlt'' : roundEven (x / ulp x) + 1 ≤ N := by
      have : roundEven (x / ulp x) < N := by exact_mod_cast hlt'
      omega
    have hle : ((roundEven (x / ulp x) : ℚ) + 1) * ulp x ≤ N * ulp x :=
      mul_le_mul_of_nonneg_right (by exact_mod_cast hlt'') hu.le
    rw [← hN] at hle
    push_cast at hle
    rw [add_mul, ← hval] at hle
    linarith [herr.1]
  · linarith [herr.2]

theorem ulp_mul_pow {x : ℚ} {E : Int} (hlog : Int.log 2 |x| ≤ E) (hE : -126 ≤ E) :
    ∃ n : ℕ, ulp x * 2 ^ n = 2 ^ (E - 23) := by
  have hj : max (Int.log 2 |x|) (-126) - 23 ≤ E - 23 := by
    have := max_le hlog hE
    omega
  refine ⟨(E - 23 - (max (Int.log 2 |x|) (-126) - 23)).toNat, ?_⟩
  unfold ulp
  rw [← zpow_natCast, ← zpow_add₀ (by norm_num : (2 : ℚ) ≠ 0)]
  congr 1
  rw [Int.toNat_of_nonneg (by omega)]
  ring

/-- A multiple of `2^-24` in `[0, 1/2]` is a binary32 value: rounding keeps it. -/
theorem round_value_of_grid {y : ℚ} (n : Int) (hy : y = (n : ℚ) / 16777216) (h0 : 0 ≤ y)
    (h1 : y ≤ 1 / 2) : round_value y = y := by
  rcases h0.eq_or_lt with h | h
  · rw [← h]; simp [round_value]
  · have hlog : Int.log 2 |y| ≤ -1 := by
      rw [abs_of_pos h]
      have : Int.log 2 y < 0 := by
        apply (Int.lt_zpow_iff_log_lt (by norm_num) h).mp
        norm_num
        linarith
      omega
    obtain ⟨k, hk⟩ := ulp_mul_pow hlog (by norm_num)
    have hk' : ulp y * 2 ^ k = 1 / 16777216 := by rw [hk]; norm_num
    have hu := ulp_pos y
    have hdiv : y / ulp y = ((n * 2 ^ k : Int) : ℚ) := by
      rw [div_eq_iff hu.ne']
      push_cast
      have : (n : ℚ) * 2 ^ k * ulp y = n * (ulp y * 2 ^ k) := by ring
      rw [this, hk']
      conv_lhs => rw [hy]
      ring
    rw [round_value_eq h.ne', hdiv, roundEven_intCast, ← hdiv]
    field_simp

theorem round_value_half_integer {x : ℚ} (H : Int) (h0 : 0 ≤ x) (h1 : x < 256)
    (hx : x = (H : ℚ) / 2) : round_value x = x := by
  have a := round_value_le h0 h1 H hx.le
  have b := le_round_value h0 h1 H hx.ge
  rw [← hx] at a b
  exact le_antisymm a b

theorem sum_of_bounds {L R : Int} (h1 : (254 : ℚ) < (L : ℚ) + R) (h2 : (L : ℚ) + R < 257) :
    L + R = 255 ∨ L + R = 256 := by
  have a : (254 : Int) < L + R := by exact_mod_cast h1
  have b : L + R < (257 : Int) := by exact_mod_cast h2
  omega

set_option maxHeartbeats 1600000 in
/-- The two gains, computed in binary32 from a panning `p` in `[0, 1]` that is a binary32
value, add up to 255 or 256. -/
theorem gains_sum {p : ℚ} (h0 : 0 ≤ p) (h1 : p ≤ 1)
    (hgrid : 1 / 2 ≤ p → ∃ m : Int, p = (m : ℚ) / 16777216) :
    lroundQ (round_value (round_value (1 - p) * (255 / 2)))
        + lroundQ (round_value (round_value (1 + p) * (255 / 2))) = 255
    ∨ lroundQ (round_value (round_value (1 - p) * (255 / 2)))
        + lroundQ (round_value (round_value (1 + p) * (255 / 2))) = 256 := by
  -- the right operand `b = fl(1 + p)`
  have hb1 : 1 ≤ round_value (1 + p) := by
    have := le_round_value (x := 1 + p) (by linarith) (by linarith) 2 (by norm_num; linarith)
    norm_num at this
    exact this
  have hb2 : round_value (1 + p) ≤ 2 := by
    have := round_value_le (x := 1 + p) (by linarith) (by linarith) 4 (by norm_num; linarith)
    norm_num at this
    exact this
  have hberr : 1 + p - 1 / 16777216 ≤ round_value (1 + p)
      ∧ round_value (1 + p) ≤ 1 + p + 1 / 16777216 := by
    by_cases hz : 1 + p < 2
    · have he := abs_le.mp (abs_round_value_sub_le (1 + p))
      rw [ulp_of_mem_one_two (by linarith) hz] at he
      constructor <;> linarith [he.1, he.2]
    · have hp : 1 + p = 2 := by linarith
      have := round_value_half_integer (x := 1 + p) 4 (by linarith) (by linarith)
        (by rw [hp]; norm_num)
      rw [this]
      constructor <;> linarith
  by_cases hhalf : 1 / 2 ≤ p
  · -- `1 - p` is computed exactly
    obtain ⟨m, hm⟩ := hgrid hhalf
    have ha : round_value (1 - p) = 1 - p := by
      apply round_value_of_grid (16777216 - m)
      · rw [hm]; push_cast; ring
      · linarith
      · linarith
    rw [ha]
    have hb3 : 3 / 2 ≤ round_value (1 + p) := by
      have := le_round_value (x := 1 + p) (by linarith) (by linarith) 3 (by norm_num; linarith)
      norm_num at this
      exact this
    by_cases hp1 : p = 1
    · subst hp1
      have hb : round_value ((1 : ℚ) + 1) = 2 := by
        have := round_value_half_integer (x := (1 : ℚ) + 1) 4 (by norm_num) (by norm_num)
          (by norm_num)
        rw [this]; norm_num
      rw [hb]
      have e1 : ((1 : ℚ) - 1) * (255 / 2) = 0 := by norm_num
      have e2 : round_value ((2 : ℚ) * (255 / 2)) = 255 := by
        have := round_value_half_integer (x := (2 : ℚ) * (255 / 2)) 510 (by norm_num)
          (by norm_num) (by norm_num)
        rw [this]; norm_num
      rw [e1, e2]
      left
      have z0 : round_value 0 = 0 := by simp [round_value]
      rw [z0, lroundQ_of_nonneg (le_refl _), lroundQ_of_nonneg (by norm_num)]
      norm_num
    · have hp1' : p < 1 := lt_of_le_of_ne h1 hp1
      have hxA0 : 0 < (1 - p) * (255 / 2) := by linarith
      have hxA1 : (1 - p) * (255 / 2) < 256 := by linarith
      have hxB0 : 128 ≤ round_value (1 + p) * (255 / 2) := by linarith
      have hxB1 : round_value (1 + p) * (255 / 2) < 256 := by linarith
      obtain ⟨lA, uA⟩ := lroundQ_round_value hxA0 hxA1
      obtain ⟨lB, uB⟩ := lroundQ_round_value (by linarith) hxB1
      rw [ulp_of_mem_128_256 hxB0 hxB1] at lB uB
      have hu0 := ulp_pos ((1 - p) * (255 / 2))
      have hu1 := ulp_le_of_lt hxA0.le hxA1
      apply sum_of_bounds
      · linarith [hberr.1]
      · linarith [hberr.2]
  · -- `p < 1/2`: both operands carry a rounding error
    have hp : p < 1 / 2 := lt_of_not_le hhalf
    have ha1 : 1 / 2 ≤ round_value (1 - p) := by
      have := le_round_value (x := 1 - p) (by linarith) (by linarith) 1 (by norm_num; linarith)
      norm_num at this
      exact this
    have ha2 : round_value (1 - p) ≤ 1 := by
      have := round_value_le (x := 1 - p) (by linarith) (by linarith) 2 (by norm_num; linarith)
      norm_num at this
      exact this
    have hb3 : round_value (1 + p) ≤ 3 / 2 := by
      have := round_value_le (x := 1 + p) (by linarith) (by linarith) 3 (by norm_num; linarith)
      norm_num at this
      exact this
    have haerr : 1 - p - 1 / 33554432 ≤ round_value (1 - p)
        ∧ round_value (1 - p) ≤ 1 - p + 1 / 33554432 := by
      by_cases hy : 1 - p < 1
      · have he := abs_le.mp (abs_round_value_sub_le (1 - p))
        rw [ulp_of_mem_half_one (by linarith) hy] at he
        constructor <;> linarith [he.1, he.2]
      · have hp' : 1 - p = 1 := by linarith
        have := round_value_half_integer (x := 1 - p) 2 (by linarith) (by linarith)
          (by rw [hp']; norm_num)
        rw [this]
        constructor <;> linarith
    have hxA0 : 0 ≤ round_value (1 - p) * (255 / 2) := by linarith
    have hxA1 : round_value (1 - p) * (255 / 2) < 256 := by linarith
    have hxB0 : 0 ≤ round_value (1 + p) * (255 / 2) := by linarith
    have hxB1 : round_value (1 + p) * (255 / 2) < 256 := by linarith
    have hA0 := round_value_nonneg hxA0 hxA1
    have hB0 := round_value_nonneg hxB0 hxB1
    by_cases hcA : round_value (1 - p) * (255 / 2) < 64
    · -- the left gain is 64, the right one 191 or 192
      have A1 : (127 : ℚ) / 2 ≤ round_value (round_value (1 - p) * (255 / 2)) := by
        have := le_round_value hxA0 hxA1 127 (by norm_num; linarith)
        norm_num at this
        exact this
      have A2 : round_value (round_value (1 - p) * (255 / 2)) ≤ 64 := by
        have := round_value_le hxA0 hxA1 128 (by norm_num; linarith)
        norm_num at this
        exact this
      have B1 : (381 : ℚ) / 2 ≤ round_value (round_value (1 + p) * (255 / 2)) := by
        have := le_round_value hxB0 hxB1 381 (by norm_num; linarith [haerr.2, hberr.1])
        norm_num at this
        exact this
      have B2 : round_value (round_value (1 + p) * (255 / 2)) ≤ 383 / 2 := by
        have := round_value_le hxB0 hxB1 383 (by norm_num; linarith)
        norm_num at this
        exact this
      have L1 : (64 : Int) ≤ lroundQ (round_value (round_value (1 - p) * (255 / 2))) :=
        le_lroundQ hA0 (by push_cast; linarith)
      have L2 : lroundQ (round_value (round_value (1 - p) * (255 / 2))) ≤ (64 : Int) :=
        lroundQ_le hA0 (by push_cast; linarith)
      have R1 : (191 : Int) ≤ lroundQ (round_value (round_value (1 + p) * (255 / 2))) :=
        le_lroundQ hB0 (by push_cast; linarith)
      have R2 : lroundQ (round_value (round_value (1 + p) * (255 / 2))) ≤ (192 : Int) :=
        lroundQ_le hB0 (by push_cast; linarith)
      omega
    · by_cases hcB : round_value (1 + p) * (255 / 2) < 128
      · -- the right gain is 128, the left one 127 or 128
        have B1 : (255 : ℚ) / 2 ≤ round_value (round_value (1 + p) * (255 / 2)) := by
          have := le_round_value hxB0 hxB1 255 (by norm_num; linarith)
          norm_num at this
          exact this
        have B2 : round_value (round_value (1 + p) * (255 / 2)) ≤ 128 := by
          have := round_value_le hxB0 hxB1 256 (by norm_num; linarith)
          norm_num at this
          exact this
        have A1 : (253 : ℚ) / 2 ≤ round_value (round_value (1 - p) * (255 / 2)) := by
          have := le_round_value hxA0 hxA1 253 (by norm_num; linarith [haerr.1, hberr.2])
          norm_num at this
          exact this
        have A2 : round_value (round_value (1 - p) * (255 / 2)) ≤ 255 / 2 := by
          have := round_value_le hxA0 hxA1 255 (by norm_num; linarith)
          norm_num at this
          exact this
        have L1 : (127 : Int) ≤ lroundQ (round_value (round_value (1 - p) * (255 / 2))) :=
          le_lroundQ hA0 (by push_cast; linarith)
        have L2 : lroundQ (round_value (round_value (1 - p) * (255 / 2))) ≤ (128 : Int) :=
          lroundQ_le hA0 (by push_cast; linarith)
        have R1 : (128 : Int) ≤ lroundQ (round_value (round_value (1 + p) * (255 / 2))) :=
          le_lroundQ hB0 (by push_cast; linarith)
        have R2 : lroundQ (round_value (round_value (1 + p) * (255 / 2))) ≤ (128 : Int) :=
          lroundQ_le hB0 (by push_cast; linarith)
        omega
      · -- both products lie where the spacing is known
        have hA64 : 64 ≤ round_value (1 - p) * (255 / 2) := le_of_not_lt hcA
        have hA128 : round_value (1 - p) * (255 / 2) < 128 := by linarith
        have hB128 : 128 ≤ round_value (1 + p) * (255 / 2) := le_of_not_lt hcB
        obtain ⟨lA, uA⟩ := lroundQ_round_value (by linarith) hxA1
        obtain ⟨lB, uB⟩ := lroundQ_round_value (by linarith) hxB1
        rw [ulp_of_mem_64_128 hA64 hA128] at lA uA
        rw [ulp_of_mem_128_256 hB128 hxB1] at lB uB
        apply sum_of_bounds
        · linarith [haerr.1, hberr.1]
        · linarith [haerr.2, hberr.2]

/-! ## Lemmas on clamping and quantizing -/

theorem static_cast_int_of_mem {z : Int} (h0 : -2147483648 ≤ z) (h1 : z ≤ 2147483647) :
    static_cast_int z = z := by
  unfold static_cast_int
  omega

theorem clamp_fin (a lo hi : ℚ) :
    clamp (Flt.fin a) (Flt.fin lo) (Flt.fin hi)
      = Flt.fin (if a < lo then lo else if hi < a then hi else a) := by
  unfold clamp
  by_cases h1 : a < lo
  · simp [Flt.lt, h1]
  · by_cases h2 : hi < a
    · simp [Flt.lt, h1, h2]
    · simp [Flt.lt, h1, h2]

theorem clamp_of_ne_nan {v : Flt} (lo hi : ℚ) (hlh : lo ≤ hi) (hv : v ≠ Flt.nan) :
    ∃ q : ℚ, clamp v (Flt.fin lo) (Flt.fin hi) = Flt.fin q ∧ lo ≤ q ∧ q ≤ hi
      ∧ (q = lo ∨ q = hi ∨ v = Flt.fin q) := by
  cases v with
  | nan => exact absurd rfl hv
  | ninf => exact ⟨lo, by simp [clamp, Flt.lt], le_refl _, hlh, Or.inl rfl⟩
  | pinf => exact ⟨hi, by simp [clamp, Flt.lt], hlh, le_refl _, Or.inr (Or.inl rfl)⟩
  | fin a =>
    refine ⟨_, clamp_fin a lo hi, ?_, ?_, ?_⟩
    · split_ifs <;> linarith
    · split_ifs <;> linarith
    · split_ifs
      · exact Or.inl rfl
      · exact Or.inr (Or.inl rfl)
      · exact Or.inr (Or.inr rfl)

theorem lround_fin_of_bounds {q : ℚ} (h0 : 0 ≤ q) (h1 : q ≤ 255) :
    lround (Flt.fin q) = lroundQ q ∧ 0 ≤ lroundQ q ∧ lroundQ q ≤ 255 := by
  have hb := lroundQ_bounds (N := 255) h0 (by exact_mod_cast h1)
  refine ⟨?_, hb.1, hb.2⟩
  simp only [lround, LONG_MIN]
  rw [if_pos ⟨by omega, by omega⟩]

/-- For an argument other than NaN the quantized volume is the nearest integer of a
finite product in `[0, 128]`, and none of the conversions changes it. -/
theorem to_mix_volume_of_ne_nan {v : Flt} (hv : v ≠ Flt.nan) :
    ∃ q : ℚ, clamp01 v = Flt.fin q ∧ 0 ≤ q ∧ q ≤ 1 ∧ (q = 0 ∨ q = 1 ∨ v = Flt.fin q)
      ∧ to_mix_volume v = lroundQ (round_value (q * 128))
      ∧ lround ((clamp01 v).mul (Flt.fin 128)) = to_mix_volume v
      ∧ 0 ≤ to_mix_volume v ∧ to_mix_volume v ≤ 128 := by
  obtain ⟨q, hq, hq0, hq1, hor⟩ := clamp_of_ne_nan 0 1 (by norm_num) hv
  have h0 : (0 : ℚ) ≤ q * 128 := by linarith
  have h1 : q * 128 < 256 := by linarith
  have hmul : (clamp01 v).mul (Flt.fin 128) = Flt.fin (round_value (q * 128)) := by
    unfold clamp01
    rw [hq]
    simp only [Flt.mul]
    exact round32_of_lt h0 h1
  have y0 := round_value_nonneg h0 h1
  have y1 : round_value (q * 128) ≤ 128 := by
    have := round_value_le h0 h1 256 (by norm_num; linarith)
    norm_num at this
    exact this
  have hb := lroundQ_bounds (N := 128) y0 (by exact_mod_cast y1)
  have hl := (lround_fin_of_bounds y0 (by linarith)).1
  have hc : ((MIX_MAX_VOLUME : Int) : ℚ) = 128 := by simp [MIX_MAX_VOLUME]
  have hto : to_mix_volume v = lroundQ (round_value (q * 128)) := by
    unfold to_mix_volume
    rw [hc, hmul, hl, static_cast_int_of_mem (by omega) (by omega)]
  refine ⟨q, hq, hq0, hq1, hor, hto, ?_, ?_, ?_⟩
  · rw [hmul, hl, hto]
  · rw [hto]; exact hb.1
  · rw [hto]; exact hb.2

theorem to_mix_volume_nan : to_mix_volume Flt.nan = 0 := by decide!

/-- The quantized volume is in the device's range for every argument, NaN included. -/
theorem to_mix_volume_mem (v : Flt) : 0 ≤ to_mix_volume v ∧ to_mix_volume v ≤ 128 := by
  by_cases hv : v = Flt.nan
  · subst hv
    rw [to_mix_volume_nan]
    omega
  · obtain ⟨_, _, _, _, _, _, _, h1, h2⟩ := to_mix_volume_of_ne_nan hv
    exact ⟨h1, h2⟩

/-! ## Lemmas on the gains -/

theorem apply_panning_pan_of_ne_nan {p : Flt} (hp : p ≠ Flt.nan) :
    ∃ q : ℚ, apply_panning_pan p = Flt.fin q ∧ -1 ≤ q ∧ q ≤ 1
      ∧ (q = -1 ∨ q = 1 ∨ p = Flt.fin q) :=
  clamp_of_ne_nan (-1) 1 (by norm_num) hp

/-- The gain computed from `1 + q` for a clamped `q`: both float operations stay finite,
the result of `lround` lies in `[0, 255]`, and the narrowing to `Uint8` keeps it. -/
theorem gain_of_pan {q : ℚ} (h0 : -1 ≤ q) (h1 : q ≤ 1) :
    (round32 (1 + q)).mul (Flt.fin (255 / 2))
        = Flt.fin (round_value (round_value (1 + q) * (255 / 2)))
    ∧ lround ((round32 (1 + q)).mul (Flt.fin (255 / 2)))
        = lroundQ (round_value (round_value (1 + q) * (255 / 2)))
    ∧ 0 ≤ lroundQ (round_value (round_value (1 + q) * (255 / 2)))
    ∧ lroundQ (round_value (round_value (1 + q) * (255 / 2))) ≤ 255
    ∧ ((static_cast_Uint8 (lround ((round32 (1 + q)).mul (Flt.fin (255 / 2)))) : Nat) : Int)
        = lroundQ (round_value (round_value (1 + q) * (255 / 2))) := by
  have hz0 : (0 : ℚ) ≤ 1 + q := by linarith
  have hz1 : 1 + q < 256 := by linarith
  have a0 := round_value_nonneg hz0 hz1
  have a2 : round_value (1 + q) ≤ 2 := by
    have := round_value_le hz0 hz1 4 (by norm_num; linarith)
    norm_num at this
    exact this
  have hx0 : 0 ≤ round_value (1 + q) * (255 / 2) := by linarith
  have hx1 : round_value (1 + q) * (255 / 2) < 256 := by linarith
  have A0 := round_value_nonneg hx0 hx1
  have A1 : round_value (round_value (1 + q) * (255 / 2)) ≤ 255 := by
    have := round_value_le hx0 hx1 510 (by norm_num; linarith)
    norm_num at this
    exact this
  have hmul : (round32 (1 + q)).mul (Flt.fin (255 / 2))
      = Flt.fin (round_value (round_value (1 + q) * (255 / 2))) := by
    rw [round32_of_lt hz0 hz1]
    simp only [Flt.mul]
    exact round32_of_lt hx0 hx1
  obtain ⟨hl, hl0, hl1⟩ := lround_fin_of_bounds A0 A1
  refine ⟨hmul, by rw [hmul, hl], hl0, hl1, ?_⟩
  rw [hmul, hl]
  unfold static_cast_Uint8
  omega

theorem apply_panning_left_of_pan {p : Flt} {q : ℚ} (hq : apply_panning_pan p = Flt.fin q) :
    apply_panning_left p
      = static_cast_Uint8 (lround ((round32 (1 + -q)).mul (Flt.fin (255 / 2)))) := by
  unfold apply_panning_left
  rw [hq]
  rfl

theorem apply_panning_right_of_pan {p : Flt} {q : ℚ} (hq : apply_panning_pan p = Flt.fin q) :
    apply_panning_right p
      = static_cast_Uint8 (lround ((round32 (1 + q)).mul (Flt.fin (255 / 2)))) := by
  unfold apply_panning_right
  rw [hq]
  rfl

theorem apply_panning_pan_of_one_le {p : Flt} (h : (Flt.fin 1).le p = true) :
    apply_panning_pan p = Flt.fin 1 := by
  cases p with
  | nan => simp [Flt.le] at h
  | ninf => simp [Flt.le] at h
  | pinf => simp [apply_panning_pan, clamp, Flt.lt]
  | fin a =>
    simp only [Flt.le, decide_eq_true_eq] at h
    unfold apply_panning_pan
    rw [clamp_fin]
    congr 1
    split_ifs <;> linarith

theorem apply_panning_pan_of_le_neg_one {p : Flt} (h : p.le (Flt.fin (-1)) = true) :
    apply_panning_pan p = Flt.fin (-1) := by
  cases p with
  | nan => simp [Flt.le] at h
  | pinf => simp [Flt.le] at h
  | ninf => simp [apply_panning_pan, clamp, Flt.lt]
  | fin a =>
    simp only [Flt.le, decide_eq_true_eq] at h
    unfold apply_panning_pan
    rw [clamp_fin]
    congr 1
    split_ifs <;> linarith

theorem round_value_of_round32 {q : ℚ} (h : round32 q = Flt.fin q) : round_value q = q := by
  unfold round32 at h
  by_cases hov : 340282366920938463463374607431768211456 ≤ |round_value q|
  · rw [if_pos hov] at h
    by_cases hs : 0 < q
    · rw [if_pos hs] at h
      cases h
    · rw [if_neg hs] at h
      cases h
  · rw [if_neg hov] at h
    exact Flt.fin.inj h

/-- A binary32 value of magnitude between 1/2 and 1 is a multiple of `2^-24`. -/
theorem grid_of_binary32 {q : ℚ} (h : round32 q = Flt.fin q) (h0 : 1 / 2 ≤ |q|)
    (h1 : |q| ≤ 1) : ∃ m : Int, q = (m : ℚ) / 16777216 := by
  rcases h1.eq_or_lt with h1 | h1
  · rcases abs_eq (by norm_num : (0 : ℚ) ≤ 1) |>.mp h1 with e | e
    · exact ⟨16777216, by rw [e]; norm_num⟩
    · exact ⟨-16777216, by rw [e]; norm_num⟩
  · have hq : q ≠ 0 := by
      intro e
      rw [e] at h0
      norm_num at h0
    have hu : ulp q = 1 / 16777216 := by
      have : ulp q = ulp |q| := by unfold ulp; rw [abs_abs]
      rw [this, ulp_of_mem_half_one h0 h1]
    have hv := round_value_of_round32 h
    rw [round_value_eq hq, hu] at hv
    exact ⟨roundEven (q / (1 / 16777216)), by linarith⟩

/-! ## Lemmas on the volume formula of the specification -/

theorem round_value_of_multiple {x : ℚ} (n : Int) (h : x = n * ulp x) : round_value x = x := by
  rcases eq_or_ne x 0 with hx | hx
  · rw [hx]; simp [round_value]
  · have hu := ulp_pos x
    rw [round_value_eq hx]
    have : x / ulp x = n := by
      rw [div_eq_iff hu.ne']
      exact h
    rw [this, roundEven_intCast]
    exact h.symm

theorem lt_zpow_log_succ (x : ℚ) : |x| < 2 ^ (Int.log 2 |x| + 1) := by
  have := Int.lt_zpow_succ_log_self (b := 2) (by norm_num) |x|
  simpa using this

/-- A multiple of `2^(E - 23)` of magnitude at most `2^(E + 1)` is a binary32 value. -/
theorem round_value_of_scaled {r : ℚ} {E : Int} (n : Int) (hE : -126 ≤ E)
    (hr : r = n * 2 ^ (E - 23)) (hle : |r| ≤ 2 ^ (E + 1)) : round_value r = r := by
  rcases eq_or_ne r 0 with h0 | h0
  · rw [h0]; simp [round_value]
  have hpos : 0 < |r| := abs_pos.mpr h0
  rcases hle.lt_or_eq with hlt | heq
  · have hlog : Int.log 2 |r| ≤ E := by
      have : Int.log 2 |r| < E + 1 := by
        apply (Int.lt_zpow_iff_log_lt (by norm_num) hpos).mp
        simpa using hlt
      omega
    obtain ⟨k, hk⟩ := ulp_mul_pow hlog hE
    apply round_value_of_multiple (n * 2 ^ k)
    calc r = n * 2 ^ (E - 23) := hr
      _ = n * (ulp r * 2 ^ k) := by rw [hk]
      _ = ((n * 2 ^ k : Int) : ℚ) * ulp r := by push_cast; ring
  · have hlog : Int.log 2 |r| = E + 1 := by
      apply log_eq_of_mem
      · rw [heq]
      · rw [heq]
        exact zpow_lt_zpow_right₀ (by norm_num) (by omega)
    have hu : ulp r = 2 ^ (E + 1 - 23) := by
      unfold ulp
      rw [hlog, max_eq_left (by omega)]
    have h2 : (2 : ℚ) ^ (E + 1) = 8388608 * 2 ^ (E + 1 - 23) := by
      have : E + 1 = 23 + (E + 1 - 23) := by ring
      conv_lhs => rw [this]
      rw [zpow_add₀ (by norm_num : (2 : ℚ) ≠ 0)]
      norm_num
    rcases abs_cases r with ⟨ha, _⟩ | ⟨ha, _⟩
    · apply round_value_of_multiple 8388608
      rw [hu]
      push_cast
      rw [← h2, ← heq, ha]
    · apply round_value_of_multiple (-8388608)
      rw [hu]
      push_cast
      rw [neg_mul, ← h2, ← heq, ha]
      ring

/-- Rounding to binary32 is idempotent: the rounded value is a binary32 value. -/
theorem round_value_idem (x : ℚ) : round_value (round_value x) = round_value x := by
  rcases eq_or_ne x 0 with hx | hx
  · rw [hx]; simp [round_value]
  have hE : (-126 : Int) ≤ max (Int.log 2 |x|) (-126) := le_max_right _ _
  have hu : ulp x = 2 ^ (max (Int.log 2 |x|) (-126) - 23) := rfl
  have hup := ulp_pos x
  have hlt : |x| < 2 ^ (max (Int.log 2 |x|) (-126) + 1) :=
    lt_of_lt_of_le (lt_zpow_log_succ x)
      (zpow_le_zpow_right₀ (by norm_num) (by have := le_max_left (Int.log 2 |x|) (-126); omega))
  have h2 : (2 : ℚ) ^ (max (Int.log 2 |x|) (-126) + 1) = 16777216 * ulp x := by
    rw [hu]
    have : max (Int.log 2 |x|) (-126) + 1 = 24 + (max (Int.log 2 |x|) (-126) - 23) := by ring
    conv_lhs => rw [this]
    rw [zpow_add₀ (by norm_num : (2 : ℚ) ≠ 0)]
    norm_num
  rw [h2] at hlt
  obtain ⟨hl1, hl2⟩ := abs_lt.mp hlt
  have hq1 : x / ulp x ≤ ((16777216 : Int) : ℚ) := by
    rw [div_le_iff₀ hup]; push_cast; linarith
  have hq2 : (((-16777216 : Int)) : ℚ) ≤ x / ulp x := by
    rw [le_div_iff₀ hup]; push_cast; linarith
  have hn1 := roundEven_le hq1
  have hn2 := le_roundEven hq2
  apply round_value_of_scaled (roundEven (x / ulp x)) hE
  · rw [round_value_eq hx, hu]
  · rw [round_value_eq hx, h2, abs_le]
    have c1 : ((roundEven (x / ulp x) : Int) : ℚ) ≤ 16777216 := by exact_mod_cast hn1
    have c2 : (-16777216 : ℚ) ≤ ((roundEven (x / ulp x) : Int) : ℚ) := by exact_mod_cast hn2
    constructor
    · have := mul_le_mul_of_nonneg_right c2 hup.le
      linarith
    · exact mul_le_mul_of_nonneg_right c1 hup.le

/-- The product of a binary32 value with 128 is exact. -/
theorem round_value_mul_128 {q : ℚ} (h : round_value q = q) :
    round_value (q * 128) = q * 128 := by
  rcases eq_or_ne q 0 with hq | hq
  · rw [hq]; simp [round_value]
  have hE : (-126 : Int) ≤ max (Int.log 2 |q|) (-126) + 7 := by
    have := le_max_right (Int.log 2 |q|) (-126); omega
  have hu : ulp q = 2 ^ (max (Int.log 2 |q|) (-126) - 23) := rfl
  have hlt : |q| < 2 ^ (max (Int.log 2 |q|) (-126) + 1) :=
    lt_of_lt_of_le (lt_zpow_log_succ q)
      (zpow_le_zpow_right₀ (by norm_num) (by have := le_max_left (Int.log 2 |q|) (-126); omega))
  apply round_value_of_scaled (roundEven (q / ulp q)) hE
  · have e : max (Int.log 2 |q|) (-126) + 7 - 23 = (max (Int.log 2 |q|) (-126) - 23) + 7 := by
      ring
    rw [e, zpow_add₀ (by norm_num : (2 : ℚ) ≠ 0), ← hu]
    conv_lhs => rw [← h, round_value_eq hq]
    norm_num
    ring
  · have e : max (Int.log 2 |q|) (-126) + 7 + 1 = (max (Int.log 2 |q|) (-126) + 1) + 7 := by
      ring
    rw [e, zpow_add₀ (by norm_num : (2 : ℚ) ≠ 0), abs_mul]
    norm_num
    linarith

theorem round32_is_binary32 (x : ℚ) : (round32 x).is_binary32 = true := by
  unfold round32
  by_cases hov : 340282366920938463463374607431768211456 ≤ |round_value x|
  · rw [if_pos hov]
    by_cases hs : 0 < x
    · rw [if_pos hs]; rfl
    · rw [if_neg hs]; rfl
  · rw [if_neg hov]
    simp only [Flt.is_binary32, decide_eq_true_eq]
    unfold round32
    rw [round_value_idem, if_neg hov]

theorem mul_is_binary32 (a b : Flt) : (a.mul b).is_binary32 = true := by
  cases a with
  | nan => cases b <;> rfl
  | ninf =>
    cases b with
    | fin q => simp only [Flt.mul]; split_ifs <;> rfl
    | nan => rfl
    | ninf => rfl
    | pinf => rfl
  | pinf =>
    cases b with
    | fin q => simp only [Flt.mul]; split_ifs <;> rfl
    | nan => rfl
    | ninf => rfl
    | pinf => rfl
  | fin p =>
    cases b with
    | fin q => exact round32_is_binary32 _
    | nan => rfl
    | ninf => simp only [Flt.mul]; split_ifs <;> rfl
    | pinf => simp only [Flt.mul]; split_ifs <;> rfl

/-- For a binary32 value other than NaN the quantizer of the code returns the value of
the formula of the specification: the float product with 128 is exact. -/
theorem spec_device_volume_of_binary32 {v : Flt} (hv : v ≠ Flt.nan)
    (hb : v.is_binary32 = true) : spec_device_volume v = some (to_mix_volume v) := by
  obtain ⟨q, hq, _, _, hor, hto, _⟩ := to_mix_volume_of_ne_nan hv
  have hrep : round32 q = Flt.fin q := by
    rcases hor with e | e | e
    · rw [e]; decide!
    · rw [e]; decide!
    · rw [e] at hb
      simpa [Flt.is_binary32] using hb
  unfold spec_device_volume
  rw [hq, hto, round_value_mul_128 (round_value_of_round32 hrep)]

/-- A float product other than NaN is quantized to the value of the formula of the
specification. -/
theorem spec_device_volume_mul (a b : Flt) (h : a.mul b ≠ Flt.nan) :
    spec_device_volume (a.mul b) = some (to_mix_volume (a.mul b)) :=
  spec_device_volume_of_binary32 h (mul_is_binary32 a b)

/-! ## The volume scalars (C1) -/

/-- C1: for every volume input `v`, each of `set_sound_volume`, `set_music_volume` and
`set_master_volume` followed by its getter returns `clamp(v, 0, 1)`, the stored scalar,
and leaves the other two scalars as they were.  The getter is the stored scalar and not
the quantized device volume: after `set_sound_volume(0.3f)` on a new adapter the getter
returns `0.3f` while the device channels are at `38`. -/
theorem C1_setter_then_getter (s : PingusSoundSDLMixer) (v : Flt) :
    (get_sound_volume (set_sound_volume s v) = clamp v (Flt.fin 0) (Flt.fin 1)
      ∧ get_music_volume (set_sound_volume s v) = get_music_volume s
      ∧ get_master_volume (set_sound_volume s v) = get_master_volume s)
    ∧ (get_music_volume (set_music_volume s v) = clamp v (Flt.fin 0) (Flt.fin 1)
      ∧ get_sound_volume (set_music_volume s v) = get_sound_volume s
      ∧ get_master_volume (set_music_volume s v) = get_master_volume s)
    ∧ (get_master_volume (set_master_volume s v) = clamp v (Flt.fin 0) (Flt.fin 1)
      ∧ get_sound_volume (set_master_volume s v) = get_sound_volume s
      ∧ get_music_volume (set_master_volume s v) = get_music_volume s)
    ∧ (get_sound_volume (set_sound_volume example_adapter float_0_3) = float_0_3
      ∧ (set_sound_volume example_adapter float_0_3).dev.channels.map
          (fun c => c.volume) = List.replicate 32 38) := by
  refine ⟨⟨rfl, rfl, rfl⟩, ⟨rfl, rfl, rfl⟩, ⟨rfl, rfl, rfl⟩, ?_, ?_⟩
  · decide!
  · decide!

/-! ## The guards of `real_play_sound` (C3) -/

/-- C3: for every name, volume and panning, when global sound is disabled, or the sound
volume is 0, or the master volume is 0, `real_play_sound` returns the adapter and the
device exactly as they were: no decode, no channel, no cache entry, no volume or
panning set, nothing logged. -/
theorem C3_play_sound_guarded_is_noop (complete : String → String) (s : PingusSoundSDLMixer)
    (name : String) (volume panning : Flt) (sound_enabled decode_ok : Bool) (pick : Int)
    (h : sound_enabled = false ∨ s.m_sound_volume = Flt.fin 0 ∨ s.m_master_volume = Flt.fin 0) :
    real_play_sound complete s name volume panning sound_enabled decode_ok pick = s := by
  unfold real_play_sound
  rcases h with h | h | h
  · simp [h]
  · simp [h, Flt.le]
  · simp [h, Flt.le]

/-- C3 at a concrete input: `set_master_volume(0.0)` on a new adapter, then
`play_sound("explosion", 1.0, 0.0)` with sound enabled. -/
theorem C3_play_sound_guarded_is_noop_witness :
    (true = false ∨ (set_master_volume example_adapter (Flt.fin 0)).m_sound_volume = Flt.fin 0
        ∨ (set_master_volume example_adapter (Flt.fin 0)).m_master_volume = Flt.fin 0)
    ∧ real_play_sound plain_complete (set_master_volume example_adapter (Flt.fin 0))
        "explosion" (Flt.fin 1) (Flt.fin 0) true true 0
        = set_master_volume example_adapter (Flt.fin 0) :=
  ⟨Or.inr (Or.inr (by decide!)),
   C3_play_sound_guarded_is_noop plain_complete _ "explosion" (Flt.fin 1) (Flt.fin 0) true true 0
     (Or.inr (Or.inr (by decide!)))⟩

/-! ## Panning (C8) -/

theorem gains_of_ne_nan {p : Flt} (hp : p ≠ Flt.nan) :
    ∃ q : ℚ, apply_panning_pan p = Flt.fin q ∧ -1 ≤ q ∧ q ≤ 1
      ∧ (q = -1 ∨ q = 1 ∨ p = Flt.fin q)
      ∧ ((Flt.fin 1).sub (apply_panning_pan p)).mul (Flt.fin (255 / 2))
          = Flt.fin (round_value (round_value (1 + -q) * (255 / 2)))
      ∧ ((Flt.fin 1).add (apply_panning_pan p)).mul (Flt.fin (255 / 2))
          = Flt.fin (round_value (round_value (1 + q) * (255 / 2)))
      ∧ lround (((Flt.fin 1).sub (apply_panning_pan p)).mul (Flt.fin (255 / 2)))
          = lroundQ (round_value (round_value (1 + -q) * (255 / 2)))
      ∧ lround (((Flt.fin 1).add (apply_panning_pan p)).mul (Flt.fin (255 / 2)))
          = lroundQ (round_value (round_value (1 + q) * (255 / 2)))
      ∧ (0 ≤ lroundQ (round_value (round_value (1 + -q) * (255 / 2)))
          ∧ lroundQ (round_value (round_value (1 + -q) * (255 / 2))) ≤ 255)
      ∧ (0 ≤ lroundQ (round_value (round_value (1 + q) * (255 / 2)))
          ∧ lroundQ (round_value (round_value (1 + q) * (255 / 2))) ≤ 255)
      ∧ ((apply_panning_left p : Nat) : Int)
          = lroundQ (round_value (round_value (1 + -q) * (255 / 2)))
      ∧ ((apply_panning_right p : Nat) : Int)
          = lroundQ (round_value (round_value (1 + q) * (255 / 2))) := by
  obtain ⟨q, hq, h0, h1, hor⟩ := apply_panning_pan_of_ne_nan hp
  obtain ⟨l1, l2, l3, l4, l5⟩ := gain_of_pan (q := -q) (by linarith) (by linarith)
  obtain ⟨r1, r2, r3, r4, r5⟩ := gain_of_pan h0 h1
  have es : (Flt.fin 1).sub (Flt.fin q) = round32 (1 + -q) := rfl
  have ea : (Flt.fin 1).add (Flt.fin q) = round32 (1 + q) := rfl
  refine ⟨q, hq, h0, h1, hor, ?_, ?_, ?_, ?_, ⟨l3, l4⟩, ⟨r3, r4⟩, ?_, ?_⟩
  · rw [hq, es]; exact l1
  · rw [hq, ea]; exact r1
  · rw [hq, es]; exact l2
  · rw [hq, ea]; exact r2
  · rw [apply_panning_left_of_pan hq]; exact l5
  · rw [apply_panning_right_of_pan hq]; exact r5

/-- C8: `apply_panning` hands the device `left = round((1 − p) × 127.5)` and
`right = round((1 + p) × 127.5)` for `p = clamp(panning, −1, 1)`, the difference, the sum
and the products being float operations and `round` being `lround` narrowed to `Uint8`.
For a panning other than NaN the narrowing changes nothing and each gain is the integer
nearest to the finite product.  Panning 0 gives equal gains (128 each), panning 1 gives
left 0 and right 255, panning −1 gives left 255 and right 0; every panning `≥ 1` gives
the gains of 1 and every panning `≤ −1` the gains of −1. -/
theorem C8_apply_panning_gains (panning : Flt) :
    (∀ (s : PingusSoundSDLMixer) (channel : Int),
        (apply_panning s channel panning).dev
          = Mix_SetPanning s.dev channel (apply_panning_left panning)
              (apply_panning_right panning))
    ∧ apply_panning_left panning
        = static_cast_Uint8
            (lround (((Flt.fin 1).sub (clamp panning (Flt.fin (-1)) (Flt.fin 1))).mul
              (Flt.fin (255 / 2))))
    ∧ apply_panning_right panning
        = static_cast_Uint8
            (lround (((Flt.fin 1).add (clamp panning (Flt.fin (-1)) (Flt.fin 1))).mul
              (Flt.fin (255 / 2))))
    ∧ (panning ≠ Flt.nan →
        ∃ A B : ℚ,
          ((Flt.fin 1).sub (clamp panning (Flt.fin (-1)) (Flt.fin 1))).mul (Flt.fin (255 / 2))
            = Flt.fin A
          ∧ ((Flt.fin 1).add (clamp panning (Flt.fin (-1)) (Flt.fin 1))).mul (Flt.fin (255 / 2))
            = Flt.fin B
          ∧ ((apply_panning_left panning : Nat) : Int) = lroundQ A
          ∧ ((apply_panning_right panning : Nat) : Int) = lroundQ B
          ∧ lround (Flt.fin A) = lroundQ A ∧ lround (Flt.fin B) = lroundQ B)
    ∧ (apply_panning_left (Flt.fin 0) = 128 ∧ apply_panning_right (Flt.fin 0) = 128)
    ∧ (apply_panning_left (Flt.fin 1) = 0 ∧ apply_panning_right (Flt.fin 1) = 255)
    ∧ (apply_panning_left (Flt.fin (-1)) = 255 ∧ apply_panning_right (Flt.fin (-1)) = 0)
    ∧ ((Flt.fin 1).le panning = true →
        apply_panning_left panning = apply_panning_left (Flt.fin 1)
        ∧ apply_panning_right panning = apply_panning_right (Flt.fin 1))
    ∧ (panning.le (Flt.fin (-1)) = true →
        apply_panning_left panning = apply_panning_left (Flt.fin (-1))
        ∧ apply_panning_right panning = apply_panning_right (Flt.fin (-1))) := by
  refine ⟨fun _ _ => rfl, rfl, rfl, ?_, ⟨by decide!, by decide!⟩, ⟨by decide!, by decide!⟩,
    ⟨by decide!, by decide!⟩, ?_, ?_⟩
  · intro hp
    obtain ⟨q, _, _, _, _, e1, e2, l1, l2, _, _, g1, g2⟩ := gains_of_ne_nan hp
    unfold apply_panning_pan at e1 e2 l1 l2
    refine ⟨_, _, e1, e2, g1, g2, ?_, ?_⟩
    · rw [← e1]; exact l1
    · rw [← e2]; exact l2
  · intro h
    have e1 : apply_panning_pan panning = apply_panning_pan (Flt.fin 1) := by
      rw [apply_panning_pan_of_one_le h]; decide!
    unfold apply_panning_left apply_panning_right
    rw [e1]
    exact ⟨rfl, rfl⟩
  · intro h
    have e1 : apply_panning_pan panning = apply_panning_pan (Flt.fin (-1)) := by
      rw [apply_panning_pan_of_le_neg_one h]; decide!
    unfold apply_panning_left apply_panning_right
    rw [e1]
    exact ⟨rfl, rfl⟩

/-- C8 at concrete inputs: panning 3 behaves as panning 1; panning `0.4f` gives left 77
and right 179, where the products taken exactly would give 76; panning `1e-10f` gives
128 and 128. -/
theorem C8_apply_panning_gains_witness :
    (Flt.fin 1).le (Flt.fin 3) = true
    ∧ apply_panning_left (Flt.fin 3) = 0 ∧ apply_panning_right (Flt.fin 3) = 255
    ∧ float_0_4 ≠ Flt.nan
    ∧ apply_panning_left float_0_4 = 77 ∧ apply_panning_right float_0_4 = 179
    ∧ lroundQ ((1 - 13421773 / 33554432) * (255 / 2)) = 76
    ∧ apply_panning_left float_1e_10 = 128 ∧ apply_panning_right float_1e_10 = 128
    ∧ (∃ A B : ℚ,
        ((Flt.fin 1).sub (clamp float_0_4 (Flt.fin (-1)) (Flt.fin 1))).mul (Flt.fin (255 / 2))
          = Flt.fin A
        ∧ ((Flt.fin 1).add (clamp float_0_4 (Flt.fin (-1)) (Flt.fin 1))).mul (Flt.fin (255 / 2))
          = Flt.fin B
        ∧ ((apply_panning_left float_0_4 : Nat) : Int) = lroundQ A
        ∧ ((apply_panning_right float_0_4 : Nat) : Int) = lroundQ B
        ∧ lround (Flt.fin A) = lroundQ A ∧ lround (Flt.fin B) = lroundQ B) := by
  have h := (C8_apply_panning_gains (Flt.fin 3)).2.2.2.2.2.2.2.1 (by decide!)
  have h4 := (C8_apply_panning_gains float_0_4).2.2.2.1 (by decide)
  exact ⟨by decide!, by rw [h.1]; decide!, by rw [h.2]; decide!, by decide, by decide!,
    by decide!, by decide!, by decide!, by decide!, h4⟩

/-! ## The ranges of the quantized values (C10) -/

/-- C10, as stated, fails at a NaN panning: `clamp` passes NaN through, `lround` of NaN
is `LONG_MIN`, the narrowing to `Uint8` wraps it to 0, and both gains are 0, so that
left + right is 0. -/
theorem C10_nan_panning_gives_zero_gains :
    clamp Flt.nan (Flt.fin (-1)) (Flt.fin 1) = Flt.nan
    ∧ lround (((Flt.fin 1).sub (clamp Flt.nan (Flt.fin (-1)) (Flt.fin 1))).mul
        (Flt.fin (255 / 2))) = -9223372036854775808
    ∧ apply_panning_left Flt.nan = 0
    ∧ apply_panning_right Flt.nan = 0
    ∧ apply_panning_left Flt.nan + apply_panning_right Flt.nan = 0
    ∧ ¬ (∀ p : Flt, apply_panning_left p + apply_panning_right p = 255
          ∨ apply_panning_left p + apply_panning_right p = 256) := by
  refine ⟨by decide!, by decide!, by decide!, by decide!, by decide!, ?_⟩
  intro h
  have h0 : apply_panning_left Flt.nan + apply_panning_right Flt.nan = 0 := by decide!
  rcases h Flt.nan with h1 | h1 <;> omega

theorem gains_sum_of_binary32 {q : ℚ} (h0 : -1 ≤ q) (h1 : q ≤ 1)
    (hq : round32 q = Flt.fin q) :
    lroundQ (round_value (round_value (1 + -q) * (255 / 2)))
        + lroundQ (round_value (round_value (1 + q) * (255 / 2))) = 255
    ∨ lroundQ (round_value (round_value (1 + -q) * (255 / 2)))
        + lroundQ (round_value (round_value (1 + q) * (255 / 2))) = 256 := by
  by_cases hs : 0 ≤ q
  · have := gains_sum hs h1 (fun hh => grid_of_binary32 hq (by rw [abs_of_nonneg hs]; exact hh)
      (by rw [abs_of_nonneg hs]; exact h1))
    rw [sub_eq_add_neg] at this
    exact this
  · have hs' : q < 0 := lt_of_not_le hs
    have := gains_sum (p := -q) (by linarith) (by linarith) (fun hh => by
      obtain ⟨m, hm⟩ := grid_of_binary32 hq (by rw [abs_of_neg hs']; exact hh)
        (by rw [abs_of_neg hs']; linarith)
      exact ⟨-m, by rw [hm]; push_cast; ring⟩)
    rw [sub_neg_eq_add] at this
    rcases this with h | h
    · left; omega
    · right; omega

/-- C10, amended: `to_mix_volume` returns an integer in `[0, 128]` for every volume
input.  For every panning other than NaN (infinities included) the values `lround`
returns for the left and right gains are integers in `[0, 255]`, so that the narrowing
to `Uint8` keeps them, and for every such panning a `float` can hold left + right is 255
or 256. -/
theorem C10_quantized_values_in_range (v p : Flt) (hp : p ≠ Flt.nan) :
    (0 ≤ to_mix_volume v ∧ to_mix_volume v ≤ MIX_MAX_VOLUME)
    ∧ (0 ≤ lround (((Flt.fin 1).sub (clamp p (Flt.fin (-1)) (Flt.fin 1))).mul
            (Flt.fin (255 / 2)))
        ∧ lround (((Flt.fin 1).sub (clamp p (Flt.fin (-1)) (Flt.fin 1))).mul
            (Flt.fin (255 / 2))) ≤ 255
        ∧ ((apply_panning_left p : Nat) : Int)
            = lround (((Flt.fin 1).sub (clamp p (Flt.fin (-1)) (Flt.fin 1))).mul
                (Flt.fin (255 / 2))))
    ∧ (0 ≤ lround (((Flt.fin 1).add (clamp p (Flt.fin (-1)) (Flt.fin 1))).mul
            (Flt.fin (255 / 2)))
        ∧ lround (((Flt.fin 1).add (clamp p (Flt.fin (-1)) (Flt.fin 1))).mul
            (Flt.fin (255 / 2))) ≤ 255
        ∧ ((apply_panning_right p : Nat) : Int)
            = lround (((Flt.fin 1).add (clamp p (Flt.fin (-1)) (Flt.fin 1))).mul
                (Flt.fin (255 / 2))))
    ∧ (p.is_binary32 = true →
        apply_panning_left p + apply_panning_right p = 255
        ∨ apply_panning_left p + apply_panning_right p = 256) := by
  obtain ⟨q, hq, h0, h1, hor, _, _, l1, l2, ⟨l3, l4⟩, ⟨r3, r4⟩, g1, g2⟩ := gains_of_ne_nan hp
  unfold apply_panning_pan at l1 l2
  refine ⟨to_mix_volume_mem v, ⟨?_, ?_, ?_⟩, ⟨?_, ?_, ?_⟩, ?_⟩
  · rw [l1]; exact l3
  · rw [l1]; exact l4
  · rw [l1]; exact g1
  · rw [l2]; exact r3
  · rw [l2]; exact r4
  · rw [l2]; exact g2
  · intro hf
    have hrep : round32 q = Flt.fin q := by
      rcases hor with e | e | e
      · rw [e]; decide!
      · rw [e]; decide!
      · rw [e] at hf
        simpa [Flt.is_binary32] using hf
    rcases gains_sum_of_binary32 h0 h1 hrep with h | h
    · left; omega
    · right; omega

/-- C10 amended, at concrete inputs: volume NaN gives 0, volume `0.3f` gives 38, and
panning `0.4f` gives the gains 77 and 179. -/
theorem C10_quantized_values_in_range_witness :
    float_0_4 ≠ Flt.nan ∧ float_0_4.is_binary32 = true
    ∧ to_mix_volume Flt.nan = 0
    ∧ to_mix_volume float_0_3 = 38
    ∧ apply_panning_left float_0_4 = 77
    ∧ apply_panning_right float_0_4 = 179
    ∧ (0 ≤ to_mix_volume float_0_3 ∧ to_mix_volume float_0_3 ≤ MIX_MAX_VOLUME)
    ∧ (apply_panning_left float_0_4 + apply_panning_right float_0_4 = 255
        ∨ apply_panning_left float_0_4 + apply_panning_right float_0_4 = 256) :=
  ⟨by decide, by decide!, by decide!, by decide!, by decide!, by decide!,
   (C10_quantized_values_in_range float_0_3 float_0_4 (by decide)).1,
   (C10_quantized_values_in_range float_0_3 float_0_4 (by decide)).2.2.2 (by decide!)⟩

/-! ## Lemmas on the device and on `load_chunk` -/

theorem modifyAt_length {α : Type} (f : α → α) (n : Nat) (l : List α) :
    (modifyAt f n l).length = l.length := by
  induction l generalizing n with
  | nil => cases n <;> rfl
  | cons a l ih =>
    cases n with
    | zero => rfl
    | succ n => simp [modifyAt, ih]

theorem getElem?_modifyAt_self {α : Type} (f : α → α) (n : Nat) (l : List α) :
    (modifyAt f n l)[n]? = (l[n]?).map f := by
  induction l generalizing n with
  | nil => cases n <;> rfl
  | cons a l ih =>
    cases n with
    | zero => simp [modifyAt]
    | succ n => simp [modifyAt, ih]

theorem Mix_PlayChannel_of_valid (d : Device) (chunk : Handle) (loops pick : Int)
    (h : 0 ≤ pick ∧ pick < d.channels.length) :
    Mix_PlayChannel d chunk loops pick
      = (pick,
         { d with
           channels := modifyAt (fun c => { c with chunk := some chunk }) pick.toNat d.channels,
           faults := if chunk ∈ d.live_chunks then d.faults else d.faults + 1,
           calls := d.calls ++ [Call.playChannel chunk loops pick] }) := by
  unfold Mix_PlayChannel
  simp only [h, and_self, if_true]

theorem real_play_sound_of_played (complete : String → String) (s s1 : PingusSoundSDLMixer)
    (name : String) (volume panning : Flt) (sound_enabled decode_ok : Bool) (pick : Int)
    (chunk : Handle)
    (hen : sound_enabled = true)
    (hs : s.m_sound_volume.le (Flt.fin 0) = false)
    (hm : s.m_master_volume.le (Flt.fin 0) = false)
    (hload : load_chunk s (complete ("sounds/" ++ name ++ ".wav")) decode_ok = (some chunk, s1))
    (hpick : 0 ≤ pick ∧ pick < s1.dev.channels.length) :
    real_play_sound complete s name volume panning sound_enabled decode_ok pick
      = apply_panning
          { s1 with
            dev := Mix_Volume
              { s1.dev with
                channels :=
                  modifyAt (fun c => { c with chunk := some chunk }) pick.toNat s1.dev.channels,
                faults := if chunk ∈ s1.dev.live_chunks then s1.dev.faults else s1.dev.faults + 1,
                calls := s1.dev.calls ++ [Call.playChannel chunk 0 pick] }
              pick (to_mix_volume ((volume.mul s1.m_sound_volume).mul s1.m_master_volume)) }
          pick panning := by
  have hneg : ¬ pick < 0 := by omega
  simp only [real_play_sound, hen, hs, hm, hload, Mix_PlayChannel_of_valid _ _ _ _ hpick, hneg,
    Bool.not_true, Bool.or_self, Bool.false_eq_true, if_false]

theorem load_chunk_frame (s : PingusSoundSDLMixer) (path : String) (decode_ok : Bool) :
    (load_chunk s path decode_ok).2.m_music = s.m_music
    ∧ (load_chunk s path decode_ok).2.m_sound_volume = s.m_sound_volume
    ∧ (load_chunk s path decode_ok).2.m_music_volume = s.m_music_volume
    ∧ (load_chunk s path decode_ok).2.m_master_volume = s.m_master_volume
    ∧ (load_chunk s path decode_ok).2.dev.channels = s.dev.channels
    ∧ (load_chunk s path decode_ok).2.dev.music_volume = s.dev.music_volume
    ∧ (load_chunk s path decode_ok).2.dev.live_music = s.dev.live_music
    ∧ (load_chunk s path decode_ok).2.dev.playing_music = s.dev.playing_music := by
  unfold load_chunk
  cases s.m_chunks.lookup path with
  | some chunk => simp
  | none =>
    cases decode_ok <;> simp [Mix_LoadWAV]

theorem apply_volume_changes_channels (s : PingusSoundSDLMixer) :
    (apply_volume_changes s).dev.channels
      = s.dev.channels.map
          (fun c => { c with volume := to_mix_volume (s.m_sound_volume.mul s.m_master_volume) }) := by
  simp [apply_volume_changes, Mix_Volume, Mix_VolumeMusic]

theorem real_play_sound_played_channel (complete : String → String) (s : PingusSoundSDLMixer)
    (name : String) (volume panning : Flt) (sound_enabled decode_ok : Bool) (pick : Int)
    (chunk : Handle)
    (hen : sound_enabled = true)
    (hs : s.m_sound_volume.le (Flt.fin 0) = false)
    (hm : s.m_master_volume.le (Flt.fin 0) = false)
    (hload : (load_chunk s (complete ("sounds/" ++ name ++ ".wav")) decode_ok).1 = some chunk)
    (hpick : 0 ≤ pick ∧ pick < s.dev.channels.length) :
    (∃ ch : ChannelState,
        (real_play_sound complete s name volume panning sound_enabled decode_ok pick).dev.channels[
            pick.toNat]? = some ch
        ∧ ch.chunk = some chunk
        ∧ ch.volume = to_mix_volume ((volume.mul s.m_sound_volume).mul s.m_master_volume)
        ∧ ch.left = apply_panning_left panning
        ∧ ch.right = apply_panning_right panning)
    ∧ (real_play_sound complete s name volume panning sound_enabled decode_ok pick).dev.calls
        = (load_chunk s (complete ("sounds/" ++ name ++ ".wav")) decode_ok).2.dev.calls
          ++ [Call.playChannel chunk 0 pick,
              Call.volume pick
                (to_mix_volume ((volume.mul s.m_sound_volume).mul s.m_master_volume)),
              Call.setPanning pick (apply_panning_left panning) (apply_panning_right panning)]
      := by
  obtain ⟨_, hfs, _, hfm, hfc, _, _, _⟩ :=
    load_chunk_frame s (complete ("sounds/" ++ name ++ ".wav")) decode_ok
  rcases hl : load_chunk s (complete ("sounds/" ++ name ++ ".wav")) decode_ok with ⟨r, s1⟩
  rw [hl] at hload hfs hfm hfc
  simp only at hload hfs hfm hfc
  subst hload
  have hlen : pick.toNat < s.dev.channels.length := by omega
  obtain ⟨c0, hc0⟩ : ∃ c0, s.dev.channels[pick.toNat]? = some c0 :=
    ⟨_, List.getElem?_eq_getElem hlen⟩
  have hp1 : 0 ≤ pick ∧ pick < (s1.dev.channels.length : Int) := by rw [hfc]; exact hpick
  have hne : pick ≠ -1 := by omega
  rw [real_play_sound_of_played complete s s1 name volume panning sound_enabled decode_ok pick
    chunk hen hs hm hl hp1]
  refine ⟨?_, ?_⟩
  · refine ⟨{ c0 with chunk := some chunk,
                       volume := to_mix_volume
                         ((volume.mul s.m_sound_volume).mul s.m_master_volume),
                       left := apply_panning_left panning,
                       right := apply_panning_right panning }, ?_, rfl, rfl, rfl, rfl⟩
    simp only [apply_panning, Mix_SetPanning, Mix_Volume, hpick.1, hne,
      if_true, if_false, getElem?_modifyAt_self, hfc, hc0, Option.map_some', hfs, hfm]
  · simp only [apply_panning, Mix_SetPanning, Mix_Volume, hfs, hfm,
      List.append_assoc, List.singleton_append, List.cons_append, List.nil_append]

/-! ## The volume of a played sound (C7) -/

/-- C7: when `real_play_sound(name, volume, panning)` passes its guards, the chunk is
obtained and channel `pick` is allocated, the channel plays the chunk, its volume is
`to_mix_volume(volume × sound_volume × master_volume)`, the products being float
products, and its gains are those of `apply_panning`; the device calls made after
`load_chunk` are `Mix_PlayChannel`, `Mix_Volume` and `Mix_SetPanning`, in this order.
Unless the product is NaN, that volume is the value
`round(clamp01(volume × sound_volume × master_volume) × 128)` of the specification.  For
volume 1 with both scalars at 1 the volume is 128, and for panning 0 both gains are
128. -/
theorem C7_played_channel_volume (complete : String → String) (s : PingusSoundSDLMixer)
    (name : String) (volume panning : Flt) (sound_enabled decode_ok : Bool) (pick : Int)
    (chunk : Handle)
    (hen : sound_enabled = true)
    (hs : s.m_sound_volume.le (Flt.fin 0) = false)
    (hm : s.m_master_volume.le (Flt.fin 0) = false)
    (hload : (load_chunk s (complete ("sounds/" ++ name ++ ".wav")) decode_ok).1 = some chunk)
    (hpick : 0 ≤ pick ∧ pick < s.dev.channels.length) :
    (∃ ch : ChannelState,
        (real_play_sound complete s name volume panning sound_enabled decode_ok pick).dev.channels[
            pick.toNat]? = some ch
        ∧ ch.chunk = some chunk
        ∧ ch.volume = to_mix_volume ((volume.mul s.m_sound_volume).mul s.m_master_volume)
        ∧ ch.left = apply_panning_left panning
        ∧ ch.right = apply_panning_right panning)
    ∧ (real_play_sound complete s name volume panning sound_enabled decode_ok pick).dev.calls
        = (load_chunk s (complete ("sounds/" ++ name ++ ".wav")) decode_ok).2.dev.calls
          ++ [Call.playChannel chunk 0 pick,
              Call.volume pick
                (to_mix_volume ((volume.mul s.m_sound_volume).mul s.m_master_volume)),
              Call.setPanning pick (apply_panning_left panning) (apply_panning_right panning)]
    ∧ ((volume.mul s.m_sound_volume).mul s.m_master_volume ≠ Flt.nan →
        spec_device_volume ((volume.mul s.m_sound_volume).mul s.m_master_volume)
          = some (to_mix_volume ((volume.mul s.m_sound_volume).mul s.m_master_volume)))
    ∧ to_mix_volume (((Flt.fin 1).mul (Flt.fin 1)).mul (Flt.fin 1)) = 128
    ∧ spec_device_volume (((Flt.fin 1).mul (Flt.fin 1)).mul (Flt.fin 1)) = some 128
    ∧ apply_panning_left (Flt.fin 0) = 128
    ∧ apply_panning_right (Flt.fin 0) = 128 := by
  obtain ⟨h1, h2⟩ := real_play_sound_played_channel complete s name volume panning sound_enabled
    decode_ok pick chunk hen hs hm hload hpick
  exact ⟨h1, h2, spec_device_volume_mul _ _, by decide!, by decide!, by decide!, by decide!⟩

/-- C7 at a concrete input: a new adapter with the sound volume set to `0.3f`, then
`play_sound("explosion", 0x1.dffffep-4, 0.4f)` with sound enabled, the file decoding to
handle 0 and channel 0 free.  The float product `volume × sound_volume` rounds up to
`9/256`, so channel 0 plays the chunk at volume 5 (the exact product would give 4), with
the gains 77 and 179. -/
theorem C7_played_channel_volume_witness :
    ((set_sound_volume example_adapter float_0_3).m_sound_volume.le (Flt.fin 0) = false
      ∧ (set_sound_volume example_adapter float_0_3).m_master_volume.le (Flt.fin 0) = false
      ∧ (load_chunk (set_sound_volume example_adapter float_0_3)
            (plain_complete ("sounds/" ++ "explosion" ++ ".wav")) true).1 = some 0
      ∧ ((0 : Int) ≤ 0
          ∧ (0 : Int) < (set_sound_volume example_adapter float_0_3).dev.channels.length))
    ∧ float_below_15_128.mul float_0_3 = Flt.fin (9 / 256)
    ∧ lroundQ (15728639 / 134217728 * (5033165 / 16777216) * 128) = 4
    ∧ spec_device_volume ((float_below_15_128.mul float_0_3).mul (Flt.fin 1)) = some 5
    ∧ ∃ ch : ChannelState,
        (real_play_sound plain_complete (set_sound_volume example_adapter float_0_3) "explosion"
            float_below_15_128 float_0_4 true true 0).dev.channels[(0 : Int).toNat]? = some ch
        ∧ ch.chunk = some 0 ∧ ch.volume = 5
        ∧ ch.left = 77 ∧ ch.right = 179 := by
  obtain ⟨⟨ch, hch, hc, hv, hl, hr⟩, _⟩ :=
    C7_played_channel_volume plain_complete (set_sound_volume example_adapter float_0_3)
      "explosion" float_below_15_128 float_0_4 true true 0 0 rfl (by decide!) (by decide!)
      (by decide!) (by decide!)
  refine ⟨⟨by decide!, by decide!, by decide!, by decide!⟩, by decide!, by decide!,
    by decide!, ch, hch, hc, ?_, ?_, ?_⟩
  · rw [hv]; decide!
  · rw [hl]; decide!
  · rw [hr]; decide!

/-! ## Lemmas on what the requests leave unchanged -/

theorem apply_volume_changes_applied (s : PingusSoundSDLMixer)
    (h : s.dev.channels.length = 32) : VolumesApplied (apply_volume_changes s) := by
  refine ⟨?_, ?_, ?_, ?_, ?_, ?_⟩
  · rw [apply_volume_changes_channels, List.length_map, h]
  · intro ch hch
    rw [apply_volume_changes_channels] at hch
    obtain ⟨c, _, rfl⟩ := List.mem_map.mp hch
    rfl
  · rfl
  · refine ⟨s.dev.calls, ?_⟩
    simp only [apply_volume_changes, Mix_VolumeMusic, Mix_Volume,
      List.append_assoc, List.singleton_append]
  · exact spec_device_volume_mul _ _
  · exact spec_device_volume_mul _ _

theorem construct_ok (mod_ok : Bool) :
    ∃ s : PingusSoundSDLMixer, construct true mod_ok = Except.ok (apply_volume_changes s)
      ∧ s.dev.channels.length = 32 ∧ s.m_chunks = [] ∧ s.m_music = none
      ∧ s.m_sound_volume = Flt.fin 1 ∧ s.m_music_volume = Flt.fin 1
      ∧ s.m_master_volume = Flt.fin 1
      ∧ s.dev.live_music = [] ∧ s.dev.faults = 0
      ∧ s.dev.calls = [Call.openAudio kAudioRate kAudioChannels kAudioChunkSize true,
          Call.init mod_ok, Call.allocateChannels 32] := by
  cases mod_ok
  · exact ⟨_, rfl, by decide!, rfl, rfl, rfl, rfl, rfl, rfl, rfl, rfl⟩
  · exact ⟨_, rfl, by decide!, rfl, rfl, rfl, rfl, rfl, rfl, rfl, rfl⟩

theorem construct_error (mod_ok : Bool) (s : PingusSoundSDLMixer) :
    construct false mod_ok ≠ Except.ok s := by
  intro h
  simp [construct, Mix_OpenAudio] at h

theorem run_append_singleton (complete : String → String) (s : PingusSoundSDLMixer)
    (ops : List Op) (op : Op) :
    run complete s (ops ++ [op]) = step complete (run complete s ops) op := by
  simp [run, List.foldl_append]

theorem step_of_volume_setter (complete : String → String) (s : PingusSoundSDLMixer) (op : Op)
    (h : is_volume_setter op = true) :
    ∃ t : PingusSoundSDLMixer, step complete s op = apply_volume_changes t ∧ t.dev = s.dev := by
  cases op <;> simp [is_volume_setter] at h <;> exact ⟨_, rfl, rfl⟩

/-! ## The device volumes after the setters (C2) -/

/-- C2: after a successful construction followed by any sequence of `set_sound_volume`,
`set_music_volume` and `set_master_volume` calls, all 32 channels are at
`to_mix_volume(sound_volume × master_volume)` and the music stream is at
`to_mix_volume(music_volume × master_volume)`, for the scalars stored at that point and
their float product; these are the values of the last `Mix_Volume(-1, ·)` and
`Mix_VolumeMusic` calls, which are the last two calls the device received.  Unless a
product is NaN, they are the values `round(clamp01(sound_volume × master_volume) × 128)`
and `round(clamp01(music_volume × master_volume) × 128)` of the specification. -/
theorem C2_device_volumes_follow_scalars (complete : String → String) (open_ok mod_ok : Bool)
    (s0 : PingusSoundSDLMixer) (ops : List Op)
    (hc : construct open_ok mod_ok = Except.ok s0)
    (hops : ∀ op ∈ ops, is_volume_setter op = true) :
    (run complete s0 ops).dev.channels.length = 32
    ∧ (∀ ch ∈ (run complete s0 ops).dev.channels,
        ch.volume = to_mix_volume
          ((run complete s0 ops).m_sound_volume.mul (run complete s0 ops).m_master_volume))
    ∧ (run complete s0 ops).dev.music_volume
        = to_mix_volume
          ((run complete s0 ops).m_music_volume.mul (run complete s0 ops).m_master_volume)
    ∧ (∃ earlier : List Call,
        (run complete s0 ops).dev.calls = earlier
          ++ [Call.volume (-1) (to_mix_volume
                ((run complete s0 ops).m_sound_volume.mul (run complete s0 ops).m_master_volume)),
              Call.volumeMusic (to_mix_volume
                ((run complete s0 ops).m_music_volume.mul
                  (run complete s0 ops).m_master_volume))])
    ∧ ((run complete s0 ops).m_sound_volume.mul (run complete s0 ops).m_master_volume ≠ Flt.nan →
        spec_device_volume
            ((run complete s0 ops).m_sound_volume.mul (run complete s0 ops).m_master_volume)
          = some (to_mix_volume
            ((run complete s0 ops).m_sound_volume.mul (run complete s0 ops).m_master_volume)))
    ∧ ((run complete s0 ops).m_music_volume.mul (run complete s0 ops).m_master_volume ≠ Flt.nan →
        spec_device_volume
            ((run complete s0 ops).m_music_volume.mul (run complete s0 ops).m_master_volume)
          = some (to_mix_volume
            ((run complete s0 ops).m_music_volume.mul (run complete s0 ops).m_master_volume))) := by
  show VolumesApplied (run complete s0 ops)
  induction ops using List.reverseRecOn with
  | nil =>
    cases open_ok with
    | false => exact absurd hc (construct_error mod_ok s0)
    | true =>
      obtain ⟨s, hs, hlen, _⟩ := construct_ok mod_ok
      rw [hs] at hc
      cases hc
      exact apply_volume_changes_applied s hlen
  | append_singleton ops op ih =>
    have ih' := ih (fun o ho => hops o (List.mem_append_left _ ho))
    obtain ⟨t, ht, hdev⟩ := step_of_volume_setter complete (run complete s0 ops) op
      (hops op (List.mem_append_right _ (List.mem_singleton_self op)))
    rw [run_append_singleton, ht]
    exact apply_volume_changes_applied t (by rw [hdev]; exact ih'.1)

/-- C2 at a concrete input: construction, then `set_sound_volume(0.3f)`,
`set_master_volume(0x1.dffffep-4)`, `set_music_volume(2)`.  The float product of the
sound and master scalars is `9/256`, so the channels are at 5 (the exact product would
give 4), and the music stream is at 15. -/
theorem C2_device_volumes_follow_scalars_witness :
    construct true true = Except.ok example_adapter
    ∧ (∀ op ∈ [Op.set_sound_volume float_0_3, Op.set_master_volume float_below_15_128,
          Op.set_music_volume (Flt.fin 2)], is_volume_setter op = true)
    ∧ float_0_3.mul float_below_15_128 = Flt.fin (9 / 256)
    ∧ lroundQ (5033165 / 16777216 * (15728639 / 134217728) * 128) = 4
    ∧ spec_device_volume (float_0_3.mul float_below_15_128) = some 5
    ∧ (∀ ch ∈ (run plain_complete example_adapter
          [Op.set_sound_volume float_0_3, Op.set_master_volume float_below_15_128,
            Op.set_music_volume (Flt.fin 2)]).dev.channels, ch.volume = 5)
    ∧ (run plain_complete example_adapter
          [Op.set_sound_volume float_0_3, Op.set_master_volume float_below_15_128,
            Op.set_music_volume (Flt.fin 2)]).dev.music_volume = 15 := by
  have hops : ∀ op ∈ [Op.set_sound_volume float_0_3,
      Op.set_master_volume float_below_15_128, Op.set_music_volume (Flt.fin 2)],
      is_volume_setter op = true := by
    intro op hop
    simp only [List.mem_cons, List.mem_singleton, List.not_mem_nil, or_false] at hop
    rcases hop with rfl | rfl | rfl <;> rfl
  obtain ⟨_, hch, hmus, _⟩ := C2_device_volumes_follow_scalars plain_complete true true
    example_adapter _ rfl hops
  refine ⟨rfl, hops, by decide!, by decide!, by decide!, ?_, ?_⟩
  · intro ch h
    rw [hch ch h]
    decide!
  · rw [hmus]
    decide!

theorem Mix_PlayChannel_of_invalid (d : Device) (chunk : Handle) (loops pick : Int)
    (h : ¬ (0 ≤ pick ∧ pick < d.channels.length)) :
    Mix_PlayChannel d chunk loops pick
      = (-1,
         { d with
           faults := if chunk ∈ d.live_chunks then d.faults else d.faults + 1,
           calls := d.calls ++ [Call.playChannel chunk loops (-1)] }) := by
  unfold Mix_PlayChannel
  simp only [h, if_false]
  rfl

theorem real_play_sound_of_guarded (complete : String → String) (s : PingusSoundSDLMixer)
    (name : String) (volume panning : Flt) (sound_enabled decode_ok : Bool) (pick : Int)
    (hg : (!sound_enabled || s.m_sound_volume.le (Flt.fin 0)
            || s.m_master_volume.le (Flt.fin 0)) = true) :
    real_play_sound complete s name volume panning sound_enabled decode_ok pick = s := by
  unfold real_play_sound
  rw [if_pos hg]

theorem real_play_sound_of_not_loaded (complete : String → String) (s s1 : PingusSoundSDLMixer)
    (name : String) (volume panning : Flt) (sound_enabled decode_ok : Bool) (pick : Int)
    (hg : ¬ (!sound_enabled || s.m_sound_volume.le (Flt.fin 0)
            || s.m_master_volume.le (Flt.fin 0)) = true)
    (hload : load_chunk s (complete ("sounds/" ++ name ++ ".wav")) decode_ok = (none, s1)) :
    real_play_sound complete s name volume panning sound_enabled decode_ok pick = s1 := by
  unfold real_play_sound
  rw [if_neg hg]
  simp only [hload]

theorem real_play_sound_of_no_channel (complete : String → String) (s s1 : PingusSoundSDLMixer)
    (name : String) (volume panning : Flt) (sound_enabled decode_ok : Bool) (pick : Int)
    (chunk : Handle)
    (hg : ¬ (!sound_enabled || s.m_sound_volume.le (Flt.fin 0)
            || s.m_master_volume.le (Flt.fin 0)) = true)
    (hload : load_chunk s (complete ("sounds/" ++ name ++ ".wav")) decode_ok = (some chunk, s1))
    (hpick : ¬ (0 ≤ pick ∧ pick < s1.dev.channels.length)) :
    real_play_sound complete s name volume panning sound_enabled decode_ok pick
      = { s1 with
          dev := { s1.dev with
            faults := if chunk ∈ s1.dev.live_chunks then s1.dev.faults else s1.dev.faults + 1,
            calls := s1.dev.calls ++ [Call.playChannel chunk 0 (-1)] },
          log := s1.log ++ [LogMsg.error_play_sound (complete ("sounds/" ++ name ++ ".wav"))] } := by
  unfold real_play_sound
  rw [if_neg hg]
  simp only [hload, Mix_PlayChannel_of_invalid _ _ _ _ hpick]
  rw [if_pos (by decide)]

theorem real_play_sound_of_channel (complete : String → String) (s s1 : PingusSoundSDLMixer)
    (name : String) (volume panning : Flt) (sound_enabled decode_ok : Bool) (pick : Int)
    (chunk : Handle)
    (hg : ¬ (!sound_enabled || s.m_sound_volume.le (Flt.fin 0)
            || s.m_master_volume.le (Flt.fin 0)) = true)
    (hload : load_chunk s (complete ("sounds/" ++ name ++ ".wav")) decode_ok = (some chunk, s1))
    (hpick : 0 ≤ pick ∧ pick < s1.dev.channels.length) :
    real_play_sound complete s name volume panning sound_enabled decode_ok pick
      = { s1 with
          dev := { s1.dev with
            channels :=
              modifyAt (fun c => { c with left := apply_panning_left panning,
                                          right := apply_panning_right panning }) pick.toNat
                (modifyAt
                  (fun c =>
                    { c with
                      volume :=
                        to_mix_volume ((volume.mul s1.m_sound_volume).mul s1.m_master_volume) })
                  pick.toNat
                  (modifyAt (fun c => { c with chunk := some chunk }) pick.toNat s1.dev.channels)),
            faults := if chunk ∈ s1.dev.live_chunks then s1.dev.faults else s1.dev.faults + 1,
            calls := s1.dev.calls ++ [Call.playChannel chunk 0 pick,
              Call.volume pick
                (to_mix_volume ((volume.mul s1.m_sound_volume).mul s1.m_master_volume)),
              Call.setPanning pick (apply_panning_left panning)
                (apply_panning_right panning)] } } := by
  have hneg : ¬ pick < 0 := by omega
  have hne : pick ≠ -1 := by omega
  unfold real_play_sound
  rw [if_neg hg]
  simp only [hload, Mix_PlayChannel_of_valid _ _ _ _ hpick, hneg, if_false, apply_panning,
    Mix_SetPanning, Mix_Volume, hne, hpick.1, if_true, List.append_assoc, List.singleton_append,
    List.cons_append, List.nil_append]

theorem real_play_sound_frame (complete : String → String) (s : PingusSoundSDLMixer)
    (name : String) (volume panning : Flt) (sound_enabled decode_ok : Bool) (pick : Int) :
    (real_play_sound complete s name volume panning sound_enabled decode_ok pick).m_music
        = s.m_music
    ∧ (real_play_sound complete s name volume panning sound_enabled decode_ok pick).m_sound_volume
        = s.m_sound_volume
    ∧ (real_play_sound complete s name volume panning sound_enabled decode_ok pick).m_music_volume
        = s.m_music_volume
    ∧ (real_play_sound complete s name volume panning sound_enabled decode_ok pick).m_master_volume
        = s.m_master_volume
    ∧ (real_play_sound complete s name volume panning sound_enabled decode_ok
          pick).dev.channels.length = s.dev.channels.length
    ∧ (real_play_sound complete s name volume panning sound_enabled decode_ok
          pick).dev.music_volume = s.dev.music_volume
    ∧ (real_play_sound complete s name volume panning sound_enabled decode_ok
          pick).dev.live_music = s.dev.live_music
    ∧ (real_play_sound complete s name volume panning sound_enabled decode_ok
          pick).dev.playing_music = s.dev.playing_music := by
  obtain ⟨h1, h2, h3, h4, h5, h6, h7, h8⟩ :=
    load_chunk_frame s (complete ("sounds/" ++ name ++ ".wav")) decode_ok
  by_cases hg : (!sound_enabled || s.m_sound_volume.le (Flt.fin 0)
      || s.m_master_volume.le (Flt.fin 0)) = true
  · rw [real_play_sound_of_guarded _ _ _ _ _ _ _ _ hg]
    exact ⟨rfl, rfl, rfl, rfl, rfl, rfl, rfl, rfl⟩
  · rcases hl : load_chunk s (complete ("sounds/" ++ name ++ ".wav")) decode_ok with ⟨r, s1⟩
    rw [hl] at h1 h2 h3 h4 h5 h6 h7 h8
    simp only at h1 h2 h3 h4 h5 h6 h7 h8
    cases r with
    | none =>
      rw [real_play_sound_of_not_loaded _ _ _ _ _ _ _ _ _ hg hl]
      exact ⟨h1, h2, h3, h4, by rw [h5], h6, h7, h8⟩
    | some chunk =>
      by_cases hp : 0 ≤ pick ∧ pick < (s1.dev.channels.length : Int)
      · rw [real_play_sound_of_channel _ _ _ _ _ _ _ _ _ _ hg hl hp]
        refine ⟨h1, h2, h3, h4, ?_, h6, h7, h8⟩
        simp only [modifyAt_length, h5]
      · rw [real_play_sound_of_no_channel _ _ _ _ _ _ _ _ _ _ hg hl hp]
        exact ⟨h1, h2, h3, h4, by rw [h5], h6, h7, h8⟩

theorem real_play_music_of_guarded (s : PingusSoundSDLMixer) (filename : String) (volume : Flt)
    (loop music_enabled load_ok play_ok : Bool)
    (hg : (!music_enabled || s.m_master_volume.le (Flt.fin 0)) = true) :
    real_play_music s filename volume loop music_enabled load_ok play_ok = s := by
  unfold real_play_music
  rw [if_pos hg]

theorem halt_and_free_music_of_some (s : PingusSoundSDLMixer) (music : Handle)
    (h : s.m_music = some music) :
    halt_and_free_music s
      = { s with
          dev := { s.dev with
            playing_music := none,
            live_music := s.dev.live_music.erase music,
            faults := if music ∈ s.dev.live_music then s.dev.faults else s.dev.faults + 1,
            calls := s.dev.calls ++ [Call.haltMusic, Call.freeMusic music] },
          m_music := none } := by
  unfold halt_and_free_music
  rw [h]
  simp [Mix_FreeMusic, Mix_HaltMusic]

theorem halt_and_free_music_of_none (s : PingusSoundSDLMixer) (h : s.m_music = none) :
    halt_and_free_music s = s := by
  unfold halt_and_free_music
  rw [h]

theorem halt_and_free_music_frame (s : PingusSoundSDLMixer) :
    (halt_and_free_music s).m_music = none
    ∧ (halt_and_free_music s).m_chunks = s.m_chunks
    ∧ (halt_and_free_music s).m_sound_volume = s.m_sound_volume
    ∧ (halt_and_free_music s).m_music_volume = s.m_music_volume
    ∧ (halt_and_free_music s).m_master_volume = s.m_master_volume
    ∧ (halt_and_free_music s).dev.channels = s.dev.channels
    ∧ (halt_and_free_music s).dev.live_chunks = s.dev.live_chunks
    ∧ (halt_and_free_music s).dev.next_handle = s.dev.next_handle
    ∧ (halt_and_free_music s).log = s.log := by
  cases hm : s.m_music with
  | none => rw [halt_and_free_music_of_none s hm]; simp [hm]
  | some music => rw [halt_and_free_music_of_some s music hm]; simp

theorem real_play_music_of_load_failed (s : PingusSoundSDLMixer) (filename : String)
    (volume : Flt) (loop music_enabled play_ok : Bool)
    (hg : ¬ (!music_enabled || s.m_master_volume.le (Flt.fin 0)) = true) :
    real_play_music s filename volume loop music_enabled false play_ok
      = { halt_and_free_music s with
          dev := { (halt_and_free_music s).dev with
            calls := (halt_and_free_music s).dev.calls ++ [Call.loadMUS filename none] },
          m_music := none,
          log := (halt_and_free_music s).log ++ [LogMsg.error_load_music filename] } := by
  unfold real_play_music
  rw [if_neg hg]
  simp [Mix_LoadMUS]

theorem real_play_music_of_loaded (s : PingusSoundSDLMixer) (filename : String)
    (volume : Flt) (loop music_enabled play_ok : Bool)
    (hg : ¬ (!music_enabled || s.m_master_volume.le (Flt.fin 0)) = true) :
    real_play_music s filename volume loop music_enabled true play_ok
      = { halt_and_free_music s with
          m_music := some (halt_and_free_music s).dev.next_handle,
          m_music_volume := clamp01 volume,
          dev := { (halt_and_free_music s).dev with
            channels := s.dev.channels.map
              (fun c => { c with volume := to_mix_volume (s.m_sound_volume.mul s.m_master_volume) }),
            music_volume := to_mix_volume ((clamp01 volume).mul s.m_master_volume),
            playing_music :=
              if play_ok then some (halt_and_free_music s).dev.next_handle
              else (halt_and_free_music s).dev.playing_music,
            live_music :=
              (halt_and_free_music s).dev.next_handle :: (halt_and_free_music s).dev.live_music,
            next_handle := (halt_and_free_music s).dev.next_handle + 1,
            calls := (halt_and_free_music s).dev.calls
              ++ [Call.loadMUS filename (some (halt_and_free_music s).dev.next_handle),
                  Call.volume (-1) (to_mix_volume (s.m_sound_volume.mul s.m_master_volume)),
                  Call.volumeMusic (to_mix_volume ((clamp01 volume).mul s.m_master_volume)),
                  Call.playMusic (halt_and_free_music s).dev.next_handle
                    (if loop then -1 else 1) play_ok] },
          log :=
            if play_ok then (halt_and_free_music s).log
            else (halt_and_free_music s).log ++ [LogMsg.error_play_music filename] } := by
  obtain ⟨_, _, h3, _, h5, h6, _, _, _⟩ := halt_and_free_music_frame s
  unfold real_play_music
  rw [if_neg hg]
  cases play_ok <;>
    simp [Mix_LoadMUS, Mix_PlayMusic, apply_volume_changes, Mix_Volume, Mix_VolumeMusic, h3, h5,
      h6]

theorem real_play_music_scalars (s : PingusSoundSDLMixer) (filename : String) (volume : Flt)
    (loop music_enabled load_ok play_ok : Bool) :
    (real_play_music s filename volume loop music_enabled load_ok play_ok).m_sound_volume
        = s.m_sound_volume
    ∧ (real_play_music s filename volume loop music_enabled load_ok play_ok).m_master_volume
        = s.m_master_volume
    ∧ (real_play_music s filename volume loop music_enabled load_ok play_ok).m_music_volume
        = (if (!music_enabled || s.m_master_volume.le (Flt.fin 0)) = true then s.m_music_volume
           else if load_ok = true then clamp01 volume else s.m_music_volume) := by
  obtain ⟨_, _, h3, h4, h5, _⟩ := halt_and_free_music_frame s
  by_cases hg : (!music_enabled || s.m_master_volume.le (Flt.fin 0)) = true
  · rw [real_play_music_of_guarded _ _ _ _ _ _ _ hg, if_pos hg]
    exact ⟨rfl, rfl, rfl⟩
  · rw [if_neg hg]
    cases load_ok with
    | false =>
      rw [real_play_music_of_load_failed _ _ _ _ _ _ hg]
      exact ⟨h3, h5, by simpa using h4⟩
    | true =>
      rw [real_play_music_of_loaded _ _ _ _ _ _ hg]
      exact ⟨h3, h5, by simp⟩

theorem step_scalars_congr (complete : String → String) (s t : PingusSoundSDLMixer) (op : Op)
    (h1 : s.m_sound_volume = t.m_sound_volume) (h2 : s.m_music_volume = t.m_music_volume)
    (h3 : s.m_master_volume = t.m_master_volume) :
    (step complete s op).m_sound_volume = (step complete t op).m_sound_volume
    ∧ (step complete s op).m_music_volume = (step complete t op).m_music_volume
    ∧ (step complete s op).m_master_volume = (step complete t op).m_master_volume := by
  cases op with
  | update delta => exact ⟨h1, h2, h3⟩
  | play_sound name volume panning sound_enabled decode_ok pick =>
    obtain ⟨_, a1, a2, a3, _⟩ :=
      real_play_sound_frame complete s name volume panning sound_enabled decode_ok pick
    obtain ⟨_, b1, b2, b3, _⟩ :=
      real_play_sound_frame complete t name volume panning sound_enabled decode_ok pick
    simp only [step]
    rw [a1, a2, a3, b1, b2, b3]
    exact ⟨h1, h2, h3⟩
  | play_music filename volume loop music_enabled load_ok play_ok =>
    obtain ⟨a1, a2, a3⟩ :=
      real_play_music_scalars s filename volume loop music_enabled load_ok play_ok
    obtain ⟨b1, b2, b3⟩ :=
      real_play_music_scalars t filename volume loop music_enabled load_ok play_ok
    simp only [step]
    rw [a1, a2, a3, b1, b2, b3, h1, h2, h3]
    exact ⟨rfl, rfl, rfl⟩
  | stop_music => exact ⟨h1, h2, h3⟩
  | set_sound_volume volume => exact ⟨rfl, h2, h3⟩
  | set_music_volume volume => exact ⟨h1, rfl, h3⟩
  | set_master_volume volume => exact ⟨h1, h2, rfl⟩

theorem step_channels_length (complete : String → String) (s : PingusSoundSDLMixer) (op : Op) :
    (step complete s op).dev.channels.length = s.dev.channels.length := by
  cases op with
  | update delta => rfl
  | play_sound name volume panning sound_enabled decode_ok pick =>
    exact (real_play_sound_frame complete s name volume panning sound_enabled decode_ok
      pick).2.2.2.2.1
  | stop_music => rfl
  | set_sound_volume volume =>
    simp only [step, set_sound_volume, apply_volume_changes_channels, List.length_map]
  | set_music_volume volume =>
    simp only [step, set_music_volume, apply_volume_changes_channels, List.length_map]
  | set_master_volume volume =>
    simp only [step, set_master_volume, apply_volume_changes_channels, List.length_map]
  | play_music filename volume loop music_enabled load_ok play_ok =>
    obtain ⟨_, _, _, _, _, h6, _⟩ := halt_and_free_music_frame s
    simp only [step]
    by_cases hg : (!music_enabled || s.m_master_volume.le (Flt.fin 0)) = true
    · rw [real_play_music_of_guarded _ _ _ _ _ _ _ hg]
    · cases load_ok with
      | false =>
        rw [real_play_music_of_load_failed _ _ _ _ _ _ hg]
        exact congrArg List.length h6
      | true =>
        rw [real_play_music_of_loaded _ _ _ _ _ _ hg]
        simp only [List.length_map]

theorem run_channels_length (complete : String → String) (s : PingusSoundSDLMixer)
    (ops : List Op) :
    (run complete s ops).dev.channels.length = s.dev.channels.length := by
  induction ops using List.reverseRecOn with
  | nil => rfl
  | append_singleton ops op ih => rw [run_append_singleton, step_channels_length, ih]

theorem run_scalars_congr (complete : String → String) (s t : PingusSoundSDLMixer)
    (ops : List Op)
    (h1 : s.m_sound_volume = t.m_sound_volume) (h2 : s.m_music_volume = t.m_music_volume)
    (h3 : s.m_master_volume = t.m_master_volume) :
    (run complete s ops).m_sound_volume = (run complete t ops).m_sound_volume
    ∧ (run complete s ops).m_music_volume = (run complete t ops).m_music_volume
    ∧ (run complete s ops).m_master_volume = (run complete t ops).m_master_volume := by
  induction ops using List.reverseRecOn with
  | nil => exact ⟨h1, h2, h3⟩
  | append_singleton ops op ih =>
    rw [run_append_singleton, run_append_singleton]
    exact step_scalars_congr complete _ _ op ih.1 ih.2.1 ih.2.2

theorem applies_volume_changes_congr (s t : PingusSoundSDLMixer) (op : Op)
    (h : s.m_master_volume = t.m_master_volume) :
    applies_volume_changes s op = applies_volume_changes t op := by
  cases op <;> simp only [applies_volume_changes, h]

theorem step_channels_of_applies (complete : String → String) (s : PingusSoundSDLMixer)
    (op : Op) (h : applies_volume_changes s op = true) :
    (step complete s op).dev.channels
      = s.dev.channels.map (fun c =>
          { c with
            volume := to_mix_volume
              ((step complete s op).m_sound_volume.mul (step complete s op).m_master_volume) }) := by
  cases op with
  | update delta => simp [applies_volume_changes] at h
  | play_sound name volume panning sound_enabled decode_ok pick =>
    simp [applies_volume_changes] at h
  | stop_music => simp [applies_volume_changes] at h
  | set_sound_volume volume =>
    simp only [step, set_sound_volume, apply_volume_changes_channels]
    rfl
  | set_music_volume volume =>
    simp only [step, set_music_volume, apply_volume_changes_channels]
    rfl
  | set_master_volume volume =>
    simp only [step, set_master_volume, apply_volume_changes_channels]
    rfl
  | play_music filename volume loop music_enabled load_ok play_ok =>
    simp only [applies_volume_changes, Bool.and_eq_true, Bool.not_eq_true'] at h
    obtain ⟨⟨rfl, hm⟩, rfl⟩ := h
    have hg : ¬ (!true || s.m_master_volume.le (Flt.fin 0)) = true := by simp [hm]
    obtain ⟨_, _, h3, _, h5, _⟩ := halt_and_free_music_frame s
    simp only [step]
    rw [real_play_music_of_loaded _ _ _ _ _ _ hg]
    simp only [h3, h5]

/-! ## A volume change overrides the per-play volume (C9) -/

/-- C9: after a successful `real_play_sound(name, v, p)` on channel `pick`, whose volume is
then `to_mix_volume(v × sound_volume × master_volume)`, let any sequence `mid` of further
requests follow, and then a request `op` that reaches `apply_volume_changes` (one of the
three setters, or a `play_music` that passes its guards and whose file decodes).  After
`op` channel `pick` is at `to_mix_volume(sound_volume × master_volume)` for the scalars
stored at that point, the product being a float product; unless the product is NaN this
is the value `round(clamp01(sound_volume × master_volume) × 128)` of the specification.
These scalars are the ones the requests `mid` and `op` produce without the play, so the
volume does not depend on `v`. -/
theorem C9_volume_change_overrides_play_volume (complete : String → String)
    (s : PingusSoundSDLMixer) (name : String) (v p : Flt) (sound_enabled decode_ok : Bool)
    (pick : Int) (chunk : Handle) (mid : List Op) (op : Op)
    (hen : sound_enabled = true)
    (hs : s.m_sound_volume.le (Flt.fin 0) = false)
    (hm : s.m_master_volume.le (Flt.fin 0) = false)
    (hload : (load_chunk s (complete ("sounds/" ++ name ++ ".wav")) decode_ok).1 = some chunk)
    (hpick : 0 ≤ pick ∧ pick < s.dev.channels.length)
    (hop : applies_volume_changes
      (run complete (real_play_sound complete s name v p sound_enabled decode_ok pick) mid)
      op = true) :
    (∃ ch : ChannelState,
        (real_play_sound complete s name v p sound_enabled decode_ok pick).dev.channels[
            pick.toNat]? = some ch
        ∧ ch.volume = to_mix_volume ((v.mul s.m_sound_volume).mul s.m_master_volume))
    ∧ (∃ ch : ChannelState,
        (step complete
            (run complete (real_play_sound complete s name v p sound_enabled decode_ok pick) mid)
            op).dev.channels[pick.toNat]? = some ch
        ∧ ch.volume = to_mix_volume
            ((step complete (run complete s mid) op).m_sound_volume.mul
              (step complete (run complete s mid) op).m_master_volume))
    ∧ ((step complete (run complete s mid) op).m_sound_volume.mul
          (step complete (run complete s mid) op).m_master_volume ≠ Flt.nan →
        spec_device_volume
            ((step complete (run complete s mid) op).m_sound_volume.mul
              (step complete (run complete s mid) op).m_master_volume)
          = some (to_mix_volume
            ((step complete (run complete s mid) op).m_sound_volume.mul
              (step complete (run complete s mid) op).m_master_volume)))
    ∧ (step complete
          (run complete (real_play_sound complete s name v p sound_enabled decode_ok pick) mid)
          op).m_sound_volume = (step complete (run complete s mid) op).m_sound_volume
    ∧ (step complete
          (run complete (real_play_sound complete s name v p sound_enabled decode_ok pick) mid)
          op).m_master_volume = (step complete (run complete s mid) op).m_master_volume
    ∧ applies_volume_changes (run complete s mid) op = true := by
  obtain ⟨⟨ch, hch, _, hv, _⟩, _⟩ :=
    real_play_sound_played_channel complete s name v p sound_enabled decode_ok pick chunk hen hs
      hm hload hpick
  obtain ⟨_, f1, f2, f3, f4, _⟩ :=
    real_play_sound_frame complete s name v p sound_enabled decode_ok pick
  obtain ⟨r1, r2, r3⟩ := run_scalars_congr complete
    (real_play_sound complete s name v p sound_enabled decode_ok pick) s mid f1 f2 f3
  obtain ⟨c1, _, c3⟩ := step_scalars_congr complete _ _ op r1 r2 r3
  have hlen : pick.toNat < (run complete
      (real_play_sound complete s name v p sound_enabled decode_ok pick) mid).dev.channels.length := by
    rw [run_channels_length, f4]
    omega
  refine ⟨⟨ch, hch, hv⟩, ?_, spec_device_volume_mul _ _, c1, c3, ?_⟩
  · rw [step_channels_of_applies complete _ op hop, c1, c3]
    simp only [List.getElem?_map, List.getElem?_eq_getElem hlen, Option.map_some']
    exact ⟨_, rfl, rfl⟩
  · rw [← applies_volume_changes_congr _ _ op r3]
    exact hop

/-- C9 at a concrete input: on a new adapter with the sound volume set to `0.3f`,
`play_sound("explosion", 0x1.dffffep-4, 0.4f)` puts channel 0 at 5; after a
`play_sound("splash", 0.5, 0)` on channel 1 and a `stop_music`, the request
`set_music_volume(0.25)` puts channel 0 at 38, the value for the sound volume `0.3f` and
the master volume 1. -/
theorem C9_volume_change_overrides_play_volume_witness :
    ((set_sound_volume example_adapter float_0_3).m_sound_volume.le (Flt.fin 0) = false
      ∧ (set_sound_volume example_adapter float_0_3).m_master_volume.le (Flt.fin 0) = false
      ∧ (load_chunk (set_sound_volume example_adapter float_0_3)
            (plain_complete ("sounds/" ++ "explosion" ++ ".wav")) true).1 = some 0
      ∧ ((0 : Int) ≤ 0
          ∧ (0 : Int) < (set_sound_volume example_adapter float_0_3).dev.channels.length)
      ∧ applies_volume_changes
          (run plain_complete
            (real_play_sound plain_complete (set_sound_volume example_adapter float_0_3)
              "explosion" float_below_15_128 float_0_4 true true 0)
            [Op.play_sound "splash" (Flt.fin (1 / 2)) (Flt.fin 0) true true 1, Op.stop_music])
          (Op.set_music_volume (Flt.fin (1 / 4))) = true)
    ∧ (∃ ch : ChannelState,
        (real_play_sound plain_complete (set_sound_volume example_adapter float_0_3) "explosion"
            float_below_15_128 float_0_4 true true 0).dev.channels[(0 : Int).toNat]? = some ch
        ∧ ch.volume = 5)
    ∧ (∃ ch : ChannelState,
        (step plain_complete
            (run plain_complete
              (real_play_sound plain_complete (set_sound_volume example_adapter float_0_3)
                "explosion" float_below_15_128 float_0_4 true true 0)
              [Op.play_sound "splash" (Flt.fin (1 / 2)) (Flt.fin 0) true true 1, Op.stop_music])
            (Op.set_music_volume (Flt.fin (1 / 4)))).dev.channels[(0 : Int).toNat]? = some ch
        ∧ ch.volume = 38)
    ∧ spec_device_volume (float_0_3.mul (Flt.fin 1)) = some 38 := by
  obtain ⟨⟨ch, hch, hv⟩, ⟨ch2, hch2, hv2⟩, _⟩ :=
    C9_volume_change_overrides_play_volume plain_complete
      (set_sound_volume example_adapter float_0_3) "explosion"
      float_below_15_128 float_0_4 true true 0 0
      [Op.play_sound "splash" (Flt.fin (1 / 2)) (Flt.fin 0) true true 1, Op.stop_music]
      (Op.set_music_volume (Flt.fin (1 / 4)))
      rfl (by decide!) (by decide!) (by decide!) (by decide!) rfl
  refine ⟨⟨by decide!, by decide!, by decide!, by decide!, rfl⟩, ⟨ch, hch, ?_⟩, ⟨ch2, hch2, ?_⟩,
    by decide!⟩
  · rw [hv]; decide!
  · rw [hv2]; decide!

/-! ## The consistency of adapter and device -/

theorem loaded_music_append (a b : List Call) :
    loaded_music (a ++ b) = loaded_music a ++ loaded_music b := by
  simp [loaded_music, List.filterMap_append]

theorem freed_music_append (a b : List Call) :
    freed_music (a ++ b) = freed_music a ++ freed_music b := by
  simp [freed_music, List.filterMap_append]

theorem decode_results_append (path : String) (a b : List Call) :
    decode_results path (a ++ b) = decode_results path a ++ decode_results path b := by
  simp [decode_results, List.filterMap_append]

/-- A step that keeps the handles and the members and only appends calls that neither
load nor free: consistency carries over. -/
theorem Consistent.of_quiet {s t : PingusSoundSDLMixer} (hs : Consistent s) (extra : List Call)
    (hchunks : t.m_chunks = s.m_chunks) (hmusic : t.m_music = s.m_music)
    (hlm : t.dev.live_music = s.dev.live_music) (hlc : t.dev.live_chunks = s.dev.live_chunks)
    (hnext : t.dev.next_handle = s.dev.next_handle) (hf : t.dev.faults = s.dev.faults)
    (hcalls : t.dev.calls = s.dev.calls ++ extra)
    (h1 : loaded_music extra = []) (h2 : freed_music extra = [])
    (h3 : ∀ path, decode_results path extra = []) : Consistent t := by
  have e1 : loaded_music t.dev.calls = loaded_music s.dev.calls := by
    rw [hcalls, loaded_music_append, h1, List.append_nil]
  have e2 : freed_music t.dev.calls = freed_music s.dev.calls := by
    rw [hcalls, freed_music_append, h2, List.append_nil]
  have e3 : ∀ path, decode_results path t.dev.calls = decode_results path s.dev.calls := by
    intro path
    rw [hcalls, decode_results_append, h3, List.append_nil]
  constructor
  · rw [hlm, hmusic]; exact hs.live_music_eq
  · rw [hf]; exact hs.no_faults
  · rw [hlc, hchunks]; exact hs.live_chunks_eq
  · rw [hlc]; exact hs.live_chunks_nodup
  · rw [hlc, hnext]; exact hs.live_chunks_lt
  · rw [e1, e2, hlm]; exact hs.loaded_eq
  · rw [e1]; exact hs.loaded_nodup
  · rw [e1, hnext]; exact hs.loaded_lt
  · intro path
    rw [e3, hchunks]
    exact hs.decodes path

theorem Consistent.after_apply_volume_changes {s : PingusSoundSDLMixer} (hs : Consistent s) :
    Consistent (apply_volume_changes s) :=
  hs.of_quiet
    [Call.volume (-1) (to_mix_volume (s.m_sound_volume.mul s.m_master_volume)),
     Call.volumeMusic (to_mix_volume (s.m_music_volume.mul s.m_master_volume))]
    rfl rfl rfl rfl rfl rfl
    (by simp [apply_volume_changes, Mix_Volume, Mix_VolumeMusic])
    rfl rfl (fun _ => rfl)

theorem Consistent.after_real_stop_music {s : PingusSoundSDLMixer} (hs : Consistent s) :
    Consistent (real_stop_music s) :=
  hs.of_quiet [Call.haltMusic] rfl rfl rfl rfl rfl rfl rfl rfl rfl (fun _ => rfl)

theorem Consistent.with_scalars {s : PingusSoundSDLMixer} (hs : Consistent s) (a b c : Flt) :
    Consistent { s with m_sound_volume := a, m_music_volume := b, m_master_volume := c } :=
  hs.of_quiet [] rfl rfl rfl rfl rfl rfl (by simp) rfl rfl (fun _ => rfl)

theorem lookup_some_mem {m : List (String × Handle)} {path : String} {h : Handle}
    (hl : m.lookup path = some h) : h ∈ m.map Prod.snd := by
  induction m with
  | nil => simp at hl
  | cons e m ih =>
    obtain ⟨k, v⟩ := e
    rw [List.lookup_cons] at hl
    by_cases hk : path = k
    · subst hk
      simp at hl
      simp [hl]
    · have hb : (path == k) = false := by simpa using hk
      rw [hb] at hl
      simp only [List.map_cons, List.mem_cons]
      exact Or.inr (ih hl)

theorem load_chunk_of_cached (s : PingusSoundSDLMixer) (path : String) (decode_ok : Bool)
    (chunk : Handle) (h : s.m_chunks.lookup path = some chunk) :
    load_chunk s path decode_ok = (some chunk, s) := by
  unfold load_chunk
  rw [h]

theorem load_chunk_of_failed (s : PingusSoundSDLMixer) (path : String)
    (h : s.m_chunks.lookup path = none) :
    load_chunk s path false
      = (none,
         { s with
           dev := { s.dev with calls := s.dev.calls ++ [Call.loadWAV path none] },
           log := s.log ++ [LogMsg.error_load_sound path] }) := by
  unfold load_chunk
  rw [h]
  rfl

theorem load_chunk_of_decoded (s : PingusSoundSDLMixer) (path : String)
    (h : s.m_chunks.lookup path = none) :
    load_chunk s path true
      = (some s.dev.next_handle,
         { s with
           dev := { s.dev with
             live_chunks := s.dev.next_handle :: s.dev.live_chunks,
             next_handle := s.dev.next_handle + 1,
             calls := s.dev.calls ++ [Call.loadWAV path (some s.dev.next_handle)] },
           m_chunks := (path, s.dev.next_handle) :: s.m_chunks }) := by
  unfold load_chunk
  rw [h]
  simp [Mix_LoadWAV, emplace, h]

theorem decode_results_singleton (path p : String) (r : Option Handle) :
    decode_results path [Call.loadWAV p r] = if p = path then [r] else [] := by
  unfold decode_results
  by_cases hp : p = path <;> simp [hp]

theorem Consistent.after_load_chunk {s : PingusSoundSDLMixer} (hs : Consistent s) (path : String)
    (decode_ok : Bool) :
    Consistent (load_chunk s path decode_ok).2
    ∧ ∀ chunk, (load_chunk s path decode_ok).1 = some chunk →
        chunk ∈ (load_chunk s path decode_ok).2.dev.live_chunks := by
  cases hl : s.m_chunks.lookup path with
  | some cached =>
    rw [load_chunk_of_cached s path decode_ok cached hl]
    refine ⟨hs, ?_⟩
    intro chunk hc
    cases hc
    rw [hs.live_chunks_eq]
    exact lookup_some_mem hl
  | none =>
    cases decode_ok with
    | false =>
      rw [load_chunk_of_failed s path hl]
      refine ⟨?_, fun chunk hc => by cases hc⟩
      constructor
      · exact hs.live_music_eq
      · exact hs.no_faults
      · exact hs.live_chunks_eq
      · exact hs.live_chunks_nodup
      · exact hs.live_chunks_lt
      · simp only [loaded_music_append, freed_music_append]
        simpa [loaded_music, freed_music] using hs.loaded_eq
      · simp only [loaded_music_append]
        simpa [loaded_music] using hs.loaded_nodup
      · simp only [loaded_music_append]
        simpa [loaded_music] using hs.loaded_lt
      · intro q
        obtain ⟨k, hk⟩ := hs.decodes q
        simp only [decode_results_append, decode_results_singleton]
        by_cases hq : path = q
        · subst hq
          rw [hl] at hk
          refine ⟨k + 1, ?_⟩
          rw [hk, hl]
          simp [List.replicate_succ']
        · exact ⟨k, by simp [hk, hq]⟩
    | true =>
      rw [load_chunk_of_decoded s path hl]
      refine ⟨?_, fun chunk hc => by cases hc; simp⟩
      constructor
      · exact hs.live_music_eq
      · exact hs.no_faults
      · simp only [List.map_cons]
        rw [hs.live_chunks_eq]
      · simp only [List.nodup_cons]
        refine ⟨?_, hs.live_chunks_nodup⟩
        intro hmem
        exact absurd (hs.live_chunks_lt _ hmem) (lt_irrefl _)
      · intro h hmem
        simp only [List.mem_cons] at hmem
        rcases hmem with rfl | hmem
        · exact Nat.lt_succ_self _
        · exact Nat.lt_succ_of_lt (hs.live_chunks_lt h hmem)
      · simp only [loaded_music_append, freed_music_append]
        simpa [loaded_music, freed_music] using hs.loaded_eq
      · simp only [loaded_music_append]
        simpa [loaded_music] using hs.loaded_nodup
      · intro h hmem
        simp only [loaded_music_append] at hmem
        have hmem' : h ∈ loaded_music s.dev.calls := by simpa [loaded_music] using hmem
        exact Nat.lt_succ_of_lt (hs.loaded_lt h hmem')
      · intro q
        obtain ⟨k, hk⟩ := hs.decodes q
        simp only [decode_results_append, decode_results_singleton]
        by_cases hq : path = q
        · subst hq
          rw [hl] at hk
          refine ⟨k, ?_⟩
          rw [hk]
          simp [List.lookup_cons]
        · refine ⟨k, ?_⟩
          have hb : (q == path) = false := by
            simpa using (fun h : q = path => hq h.symm)
          simp [hk, hq, List.lookup_cons, hb]

theorem Consistent.after_real_play_sound {s : PingusSoundSDLMixer} (hs : Consistent s)
    (complete : String → String) (name : String) (volume panning : Flt)
    (sound_enabled decode_ok : Bool) (pick : Int) :
    Consistent (real_play_sound complete s name volume panning sound_enabled decode_ok pick) := by
  obtain ⟨hc, hlive⟩ := hs.after_load_chunk (complete ("sounds/" ++ name ++ ".wav")) decode_ok
  by_cases hg : (!sound_enabled || s.m_sound_volume.le (Flt.fin 0)
      || s.m_master_volume.le (Flt.fin 0)) = true
  · rw [real_play_sound_of_guarded _ _ _ _ _ _ _ _ hg]
    exact hs
  · rcases hl : load_chunk s (complete ("sounds/" ++ name ++ ".wav")) decode_ok with ⟨r, s1⟩
    rw [hl] at hc hlive
    simp only at hc hlive
    cases r with
    | none =>
      rw [real_play_sound_of_not_loaded _ _ _ _ _ _ _ _ _ hg hl]
      exact hc
    | some chunk =>
      have hmem : chunk ∈ s1.dev.live_chunks := hlive chunk rfl
      by_cases hp : 0 ≤ pick ∧ pick < (s1.dev.channels.length : Int)
      · rw [real_play_sound_of_channel _ _ _ _ _ _ _ _ _ _ hg hl hp]
        exact hc.of_quiet _ rfl rfl rfl rfl rfl (by simp [hmem]) rfl rfl rfl (fun _ => rfl)
      · rw [real_play_sound_of_no_channel _ _ _ _ _ _ _ _ _ _ hg hl hp]
        exact hc.of_quiet _ rfl rfl rfl rfl rfl (by simp [hmem]) rfl rfl rfl (fun _ => rfl)

theorem Consistent.after_halt_and_free_music {s : PingusSoundSDLMixer} (hs : Consistent s) :
    Consistent (halt_and_free_music s) ∧ (halt_and_free_music s).dev.live_music = [] := by
  cases hm : s.m_music with
  | none =>
    rw [halt_and_free_music_of_none s hm]
    refine ⟨hs, ?_⟩
    rw [hs.live_music_eq, hm]
    rfl
  | some music =>
    have hlm : s.dev.live_music = [music] := by rw [hs.live_music_eq, hm]; rfl
    rw [halt_and_free_music_of_some s music hm]
    refine ⟨?_, by simp [hlm]⟩
    constructor
    · simp [hlm]
    · simp [hlm, hs.no_faults]
    · exact hs.live_chunks_eq
    · exact hs.live_chunks_nodup
    · exact hs.live_chunks_lt
    · have h := hs.loaded_eq
      rw [hlm] at h
      simp only [loaded_music_append, freed_music_append, hlm]
      simpa [loaded_music, freed_music] using h
    · simp only [loaded_music_append]
      simpa [loaded_music] using hs.loaded_nodup
    · simp only [loaded_music_append]
      simpa [loaded_music] using hs.loaded_lt
    · intro q
      obtain ⟨k, hk⟩ := hs.decodes q
      exact ⟨k, by simpa [decode_results_append, decode_results] using hk⟩

theorem Consistent.after_real_play_music {s : PingusSoundSDLMixer} (hs : Consistent s)
    (filename : String) (volume : Flt) (loop music_enabled load_ok play_ok : Bool) :
    Consistent (real_play_music s filename volume loop music_enabled load_ok play_ok) := by
  obtain ⟨ht, htl⟩ := hs.after_halt_and_free_music
  obtain ⟨hm0, _⟩ := halt_and_free_music_frame s
  by_cases hg : (!music_enabled || s.m_master_volume.le (Flt.fin 0)) = true
  · rw [real_play_music_of_guarded _ _ _ _ _ _ _ hg]
    exact hs
  · cases load_ok with
    | false =>
      rw [real_play_music_of_load_failed _ _ _ _ _ _ hg]
      exact ht.of_quiet [Call.loadMUS filename none] rfl hm0.symm rfl rfl rfl rfl rfl rfl rfl
        (fun _ => rfl)
    | true =>
      rw [real_play_music_of_loaded _ _ _ _ _ _ hg]
      have hle := ht.loaded_eq
      rw [htl, List.append_nil] at hle
      have hloaded : ∀ (a b : Int) (l : Int),
          loaded_music ((halt_and_free_music s).dev.calls
            ++ [Call.loadMUS filename (some (halt_and_free_music s).dev.next_handle),
                Call.volume (-1) a, Call.volumeMusic b,
                Call.playMusic (halt_and_free_music s).dev.next_handle l play_ok])
          = loaded_music (halt_and_free_music s).dev.calls
            ++ [(halt_and_free_music s).dev.next_handle] := by
        intro a b l
        rw [loaded_music_append]
        rfl
      have hfreed : ∀ (a b : Int) (l : Int),
          freed_music ((halt_and_free_music s).dev.calls
            ++ [Call.loadMUS filename (some (halt_and_free_music s).dev.next_handle),
                Call.volume (-1) a, Call.volumeMusic b,
                Call.playMusic (halt_and_free_music s).dev.next_handle l play_ok])
          = freed_music (halt_and_free_music s).dev.calls := by
        intro a b l
        rw [freed_music_append]
        simp [freed_music]
      constructor
      · simp [htl]
      · exact ht.no_faults
      · exact ht.live_chunks_eq
      · exact ht.live_chunks_nodup
      · intro h hmem
        exact Nat.lt_succ_of_lt (ht.live_chunks_lt h hmem)
      · simp only [hloaded, hfreed, htl, hle]
      · simp only [hloaded]
        rw [List.nodup_append]
        refine ⟨ht.loaded_nodup, List.nodup_singleton _, ?_⟩
        intro a ha hb
        simp only [List.mem_singleton] at hb
        subst hb
        exact absurd (ht.loaded_lt _ ha) (lt_irrefl _)
      · intro h hmem
        simp only [hloaded, List.mem_append, List.mem_singleton] at hmem
        rcases hmem with hmem | rfl
        · exact Nat.lt_succ_of_lt (ht.loaded_lt h hmem)
        · exact Nat.lt_succ_self _
      · intro q
        obtain ⟨k, hk⟩ := ht.decodes q
        refine ⟨k, ?_⟩
        simp only [decode_results_append]
        rw [hk]
        simp [decode_results]

theorem Consistent.after_step {s : PingusSoundSDLMixer} (hs : Consistent s)
    (complete : String → String) (op : Op) : Consistent (step complete s op) := by
  cases op with
  | update delta => exact hs
  | play_sound name volume panning sound_enabled decode_ok pick =>
    exact hs.after_real_play_sound complete name volume panning sound_enabled decode_ok pick
  | play_music filename volume loop music_enabled load_ok play_ok =>
    exact hs.after_real_play_music filename volume loop music_enabled load_ok play_ok
  | stop_music => exact hs.after_real_stop_music
  | set_sound_volume volume =>
    exact (hs.with_scalars (clamp01 volume) s.m_music_volume s.m_master_volume).after_apply_volume_changes
  | set_music_volume volume =>
    exact (hs.with_scalars s.m_sound_volume (clamp01 volume) s.m_master_volume).after_apply_volume_changes
  | set_master_volume volume =>
    exact (hs.with_scalars s.m_sound_volume s.m_music_volume (clamp01 volume)).after_apply_volume_changes

theorem Consistent.after_run {s : PingusSoundSDLMixer} (hs : Consistent s)
    (complete : String → String) (ops : List Op) : Consistent (run complete s ops) := by
  induction ops generalizing s with
  | nil => exact hs
  | cons op ops ih => exact ih (hs.after_step complete op)

theorem Consistent.of_construct {open_ok mod_ok : Bool} {s0 : PingusSoundSDLMixer}
    (hc : construct open_ok mod_ok = Except.ok s0) : Consistent s0 := by
  cases open_ok with
  | false => exact absurd hc (construct_error mod_ok s0)
  | true =>
    cases mod_ok with
    | false =>
      have h := Except.ok.inj hc
      subst h
      exact ⟨rfl, rfl, rfl, List.nodup_nil, (fun _ hm => nomatch hm), rfl, List.nodup_nil,
        (fun _ hm => nomatch hm), fun _ => ⟨0, rfl⟩⟩
    | true =>
      have h := Except.ok.inj hc
      subst h
      exact ⟨rfl, rfl, rfl, List.nodup_nil, (fun _ hm => nomatch hm), rfl, List.nodup_nil,
        (fun _ hm => nomatch hm), fun _ => ⟨0, rfl⟩⟩

theorem free_chunks_foldl (m : List (String × Handle)) (d : Device)
    (h : d.live_chunks = m.map Prod.snd) :
    m.foldl (fun d entry => Mix_FreeChunk d entry.2) d
      = { d with
          live_chunks := [],
          calls := d.calls ++ m.map (fun entry => Call.freeChunk entry.2) } := by
  induction m generalizing d with
  | nil =>
    simp only [List.map_nil] at h
    simp [← h]
  | cons e m ih =>
    simp only [List.foldl_cons]
    have h1 : (Mix_FreeChunk d e.2).live_chunks = m.map Prod.snd := by
      simp [Mix_FreeChunk, h]
    rw [ih _ h1]
    simp [Mix_FreeChunk, h]

theorem destroy_of_consistent {s : PingusSoundSDLMixer} (hs : Consistent s) :
    destroy s
      = { halt_and_free_music s with
          m_chunks := [],
          dev := { (halt_and_free_music s).dev with
            live_chunks := [],
            calls := (halt_and_free_music s).dev.calls
              ++ s.m_chunks.map (fun entry => Call.freeChunk entry.2)
              ++ [Call.closeAudio, Call.quit] } } := by
  obtain ⟨ht, _⟩ := hs.after_halt_and_free_music
  obtain ⟨_, hch, _⟩ := halt_and_free_music_frame s
  have hlc : (halt_and_free_music s).dev.live_chunks = s.m_chunks.map Prod.snd := by
    rw [← hch]; exact ht.live_chunks_eq
  unfold destroy
  simp only [hch, free_chunks_foldl _ _ hlc, Mix_Quit, Mix_CloseAudio,
    List.append_assoc, List.singleton_append]

theorem Consistent.live_music_length {s : PingusSoundSDLMixer} (hs : Consistent s) :
    s.dev.live_music.length ≤ 1 := by
  rw [hs.live_music_eq]
  cases s.m_music <;> simp

theorem Consistent.held_lt {s : PingusSoundSDLMixer} (hs : Consistent s) {music : Handle}
    (hm : s.m_music = some music) : music < s.dev.next_handle := by
  apply hs.loaded_lt
  rw [hs.loaded_eq, hs.live_music_eq, hm]
  simp

theorem real_play_music_calls_of_held {s : PingusSoundSDLMixer} {music : Handle}
    (hm : s.m_music = some music) (filename : String) (volume : Flt)
    (loop music_enabled load_ok play_ok : Bool)
    (hg : ¬ (!music_enabled || s.m_master_volume.le (Flt.fin 0)) = true) :
    ∃ rest : List Call,
      (real_play_music s filename volume loop music_enabled load_ok play_ok).dev.calls
        = s.dev.calls
          ++ [Call.haltMusic, Call.freeMusic music,
              Call.loadMUS filename (if load_ok = true then some s.dev.next_handle else none)]
          ++ rest
      ∧ freed_music rest = [] ∧ loaded_music rest = [] := by
  cases load_ok with
  | false =>
    refine ⟨[], ?_, rfl, rfl⟩
    rw [real_play_music_of_load_failed _ _ _ _ _ _ hg, halt_and_free_music_of_some s music hm]
    simp
  | true =>
    refine ⟨[Call.volume (-1) (to_mix_volume (s.m_sound_volume.mul s.m_master_volume)),
      Call.volumeMusic (to_mix_volume ((clamp01 volume).mul s.m_master_volume)),
      Call.playMusic s.dev.next_handle (if loop then -1 else 1) play_ok], ?_, rfl, rfl⟩
    rw [real_play_music_of_loaded _ _ _ _ _ _ hg, halt_and_free_music_of_some s music hm]
    simp

theorem destroy_calls_of_held {s : PingusSoundSDLMixer} (hs : Consistent s) {music : Handle}
    (hm : s.m_music = some music) :
    (destroy s).dev.calls
      = s.dev.calls ++ [Call.haltMusic, Call.freeMusic music]
        ++ s.m_chunks.map (fun entry => Call.freeChunk entry.2)
        ++ [Call.closeAudio, Call.quit] := by
  rw [destroy_of_consistent hs, halt_and_free_music_of_some s music hm]

theorem freed_music_free_chunks (m : List (String × Handle)) :
    freed_music (m.map (fun entry => Call.freeChunk entry.2)) = []
    ∧ loaded_music (m.map (fun entry => Call.freeChunk entry.2)) = [] := by
  constructor
  · simp [freed_music]
  · simp [loaded_music]

theorem destroy_released_all {s : PingusSoundSDLMixer} (hs : Consistent s) :
    (destroy s).m_music = none
    ∧ (destroy s).dev.live_music = []
    ∧ (destroy s).dev.live_chunks = []
    ∧ (destroy s).dev.faults = 0
    ∧ freed_music (destroy s).dev.calls = loaded_music (destroy s).dev.calls
    ∧ (freed_music (destroy s).dev.calls).Nodup := by
  obtain ⟨ht, htl⟩ := hs.after_halt_and_free_music
  obtain ⟨hm0, _⟩ := halt_and_free_music_frame s
  have hle := ht.loaded_eq
  rw [htl, List.append_nil] at hle
  obtain ⟨f1, f2⟩ := freed_music_free_chunks s.m_chunks
  have e1 : freed_music (destroy s).dev.calls = freed_music (halt_and_free_music s).dev.calls := by
    rw [destroy_of_consistent hs]
    simp only [freed_music_append, f1, List.append_nil]
    simp [freed_music]
  have e2 : loaded_music (destroy s).dev.calls
      = loaded_music (halt_and_free_music s).dev.calls := by
    rw [destroy_of_consistent hs]
    simp only [loaded_music_append, f2, List.append_nil]
    simp [loaded_music]
  refine ⟨?_, ?_, ?_, ?_, ?_, ?_⟩
  · rw [destroy_of_consistent hs]; exact hm0
  · rw [destroy_of_consistent hs]; exact htl
  · rw [destroy_of_consistent hs]
  · rw [destroy_of_consistent hs]; exact ht.no_faults
  · rw [e1, e2, hle]
  · rw [e1, ← hle]; exact ht.loaded_nodup

/-! ## The lifetime of music handles (C5) -/

/-- C5: after a successful construction and any sequence of requests, in every
intermediate state the music handles alive on the device are exactly the one the adapter
holds (at most one) and no handle was used or released while not alive.  A `play_music`
that passes its guards on an adapter holding a handle halts, releases that handle once
and only then loads.  The destructor on an adapter holding a handle halts and releases it
once; after the destructor no music handle is alive, the released handles are exactly the
loaded ones, and none is released twice. -/
theorem C5_music_handles_released_once (complete : String → String) (open_ok mod_ok : Bool)
    (s0 : PingusSoundSDLMixer) (ops : List Op)
    (hc : construct open_ok mod_ok = Except.ok s0) :
    (∀ n : Nat,
        (run complete s0 (ops.take n)).dev.live_music
          = (run complete s0 (ops.take n)).m_music.toList
        ∧ (run complete s0 (ops.take n)).dev.live_music.length ≤ 1
        ∧ (run complete s0 (ops.take n)).dev.faults = 0)
    ∧ (∀ (music : Handle) (filename : String) (volume : Flt) (loop load_ok play_ok : Bool),
        (run complete s0 ops).m_music = some music →
        (run complete s0 ops).m_master_volume.le (Flt.fin 0) = false →
        ∃ rest : List Call,
          (real_play_music (run complete s0 ops) filename volume loop true load_ok
              play_ok).dev.calls
            = (run complete s0 ops).dev.calls
              ++ [Call.haltMusic, Call.freeMusic music,
                  Call.loadMUS filename
                    (if load_ok = true then some (run complete s0 ops).dev.next_handle
                     else none)]
              ++ rest
          ∧ freed_music rest = [] ∧ loaded_music rest = [])
    ∧ (∀ music : Handle, (run complete s0 ops).m_music = some music →
        ∃ rest : List Call,
          (destroy (run complete s0 ops)).dev.calls
            = (run complete s0 ops).dev.calls ++ [Call.haltMusic, Call.freeMusic music] ++ rest
          ∧ freed_music rest = [] ∧ loaded_music rest = [])
    ∧ (destroy (run complete s0 ops)).m_music = none
    ∧ (destroy (run complete s0 ops)).dev.live_music = []
    ∧ (destroy (run complete s0 ops)).dev.faults = 0
    ∧ freed_music (destroy (run complete s0 ops)).dev.calls
        = loaded_music (destroy (run complete s0 ops)).dev.calls
    ∧ (freed_music (destroy (run complete s0 ops)).dev.calls).Nodup := by
  have h0 : Consistent s0 := Consistent.of_construct hc
  have hs : Consistent (run complete s0 ops) := h0.after_run complete ops
  obtain ⟨d1, d2, _, d4, d5, d6⟩ := destroy_released_all hs
  refine ⟨?_, ?_, ?_, d1, d2, d4, d5, d6⟩
  · intro n
    have hn : Consistent (run complete s0 (ops.take n)) := h0.after_run complete _
    exact ⟨hn.live_music_eq, hn.live_music_length, hn.no_faults⟩
  · intro music filename volume loop load_ok play_ok hm hmaster
    exact real_play_music_calls_of_held hm filename volume loop true load_ok play_ok
      (by simp [hmaster])
  · intro music hm
    obtain ⟨f1, f2⟩ := freed_music_free_chunks (run complete s0 ops).m_chunks
    refine ⟨(run complete s0 ops).m_chunks.map (fun entry => Call.freeChunk entry.2)
      ++ [Call.closeAudio, Call.quit], ?_, ?_, ?_⟩
    · rw [destroy_calls_of_held hs hm]
      simp only [List.append_assoc]
    · rw [freed_music_append, f1]; rfl
    · rw [loaded_music_append, f2]; rfl

/-- C5 at a concrete input: a new adapter, `play_music("a.ogg")`, `stop_music()`,
`play_music("b.ogg")`, then the destructor: handle 1 is the one alive before the
destructor, and handles 0 and 1 are released, each once. -/
theorem C5_music_handles_released_once_witness :
    construct true true = Except.ok example_adapter
    ∧ (run plain_complete example_adapter example_music_ops).dev.live_music = [1]
    ∧ (run plain_complete example_adapter example_music_ops).dev.faults = 0
    ∧ freed_music (destroy (run plain_complete example_adapter example_music_ops)).dev.calls
        = [0, 1]
    ∧ (destroy (run plain_complete example_adapter example_music_ops)).dev.live_music = []
    ∧ (destroy (run plain_complete example_adapter example_music_ops)).dev.faults = 0 := by
  obtain ⟨h1, _, _, _, h5, h6, _, _⟩ :=
    C5_music_handles_released_once plain_complete true true example_adapter example_music_ops rfl
  have h3 := (h1 3).2.2
  exact ⟨rfl, by decide!, h3, by decide!, h5, h6⟩

/-! ## What `stop_music` does to the music handle (C6) -/

/-- C6, as stated, fails: after `play_music("a.ogg")` on a new adapter, `stop_music()`
leaves the adapter holding handle 0, the handle is still alive on the device and
`Mix_FreeMusic` has not been called. -/
theorem C6_stop_music_keeps_the_handle :
    (real_stop_music
        (real_play_music example_adapter "a.ogg" (Flt.fin 1) true true true true)).m_music
      = some 0
    ∧ (real_stop_music
        (real_play_music example_adapter "a.ogg" (Flt.fin 1) true true true true)).dev.live_music
      = [0]
    ∧ freed_music (real_stop_music
        (real_play_music example_adapter "a.ogg" (Flt.fin 1) true true true true)).dev.calls
      = [] := by
  refine ⟨by decide!, by decide!, by decide!⟩

/-- C6, amended: `stop_music()` only halts the playback: its one device call is
`Mix_HaltMusic`, the adapter keeps the handle it holds, and that handle stays alive.  The
handle is released by the next `play_music` that passes its guards, or by the destructor,
whichever comes first. -/
theorem C6_stop_music_only_halts (complete : String → String) (open_ok mod_ok : Bool)
    (s0 : PingusSoundSDLMixer) (ops : List Op)
    (hc : construct open_ok mod_ok = Except.ok s0) :
    (real_stop_music (run complete s0 ops)).m_music = (run complete s0 ops).m_music
    ∧ (real_stop_music (run complete s0 ops)).dev.live_music
        = (run complete s0 ops).dev.live_music
    ∧ (real_stop_music (run complete s0 ops)).dev.calls
        = (run complete s0 ops).dev.calls ++ [Call.haltMusic]
    ∧ (real_stop_music (run complete s0 ops)).dev.playing_music = none
    ∧ (∀ music : Handle, (run complete s0 ops).m_music = some music →
        music ∈ (real_stop_music (run complete s0 ops)).dev.live_music
        ∧ (∀ (filename : String) (volume : Flt) (loop load_ok play_ok : Bool),
            (run complete s0 ops).m_master_volume.le (Flt.fin 0) = false →
            music ∉ (real_play_music (real_stop_music (run complete s0 ops)) filename volume
              loop true load_ok play_ok).dev.live_music
            ∧ Call.freeMusic music ∈ (real_play_music (real_stop_music (run complete s0 ops))
                filename volume loop true load_ok play_ok).dev.calls)
        ∧ music ∉ (destroy (real_stop_music (run complete s0 ops))).dev.live_music
        ∧ Call.freeMusic music
            ∈ (destroy (real_stop_music (run complete s0 ops))).dev.calls) := by
  have hs : Consistent (run complete s0 ops) := (Consistent.of_construct hc).after_run complete ops
  have ht : Consistent (real_stop_music (run complete s0 ops)) := hs.after_real_stop_music
  refine ⟨rfl, rfl, rfl, rfl, ?_⟩
  intro music hm
  have hm' : (real_stop_music (run complete s0 ops)).m_music = some music := hm
  refine ⟨?_, ?_, ?_, ?_⟩
  · show music ∈ (run complete s0 ops).dev.live_music
    rw [hs.live_music_eq, hm]
    simp
  · intro filename volume loop load_ok play_ok hmaster
    have hg : ¬ (!true || (real_stop_music (run complete s0 ops)).m_master_volume.le (Flt.fin 0))
        = true := by
      show ¬ (!true || (run complete s0 ops).m_master_volume.le (Flt.fin 0)) = true
      simp [hmaster]
    constructor
    · have hlt := ht.held_lt hm'
      have hp := ht.after_real_play_music filename volume loop true load_ok play_ok
      rw [hp.live_music_eq]
      cases load_ok with
      | false =>
        rw [real_play_music_of_load_failed _ _ _ _ _ _ hg]
        simp
      | true =>
        obtain ⟨_, _, _, _, _, _, _, hn, _⟩ :=
          halt_and_free_music_frame (real_stop_music (run complete s0 ops))
        rw [real_play_music_of_loaded _ _ _ _ _ _ hg]
        simp only [Option.toList, List.mem_singleton, hn]
        exact Nat.ne_of_lt hlt
    · obtain ⟨rest, hcalls, _⟩ :=
        real_play_music_calls_of_held hm' filename volume loop true load_ok play_ok hg
      rw [hcalls]
      simp
  · rw [(destroy_released_all ht).2.1]
    simp
  · rw [destroy_calls_of_held ht hm']
    simp

/-- C6 amended, at a concrete input: a new adapter, then `play_music("a.ogg")`; after
`stop_music()` the adapter still holds handle 0, and the destructor releases it. -/
theorem C6_stop_music_only_halts_witness :
    construct true true = Except.ok example_adapter
    ∧ (run plain_complete example_adapter
          [Op.play_music "a.ogg" (Flt.fin 1) true true true true]).m_music = some 0
    ∧ (real_stop_music (run plain_complete example_adapter
          [Op.play_music "a.ogg" (Flt.fin 1) true true true true])).m_music = some 0
    ∧ 0 ∈ (real_stop_music (run plain_complete example_adapter
          [Op.play_music "a.ogg" (Flt.fin 1) true true true true])).dev.live_music
    ∧ 0 ∉ (destroy (real_stop_music (run plain_complete example_adapter
          [Op.play_music "a.ogg" (Flt.fin 1) true true true true]))).dev.live_music := by
  have hm : (run plain_complete example_adapter
      [Op.play_music "a.ogg" (Flt.fin 1) true true true true]).m_music = some 0 := by decide!
  obtain ⟨h1, _, _, _, h5⟩ := C6_stop_music_only_halts plain_complete true true example_adapter
    [Op.play_music "a.ogg" (Flt.fin 1) true true true true] rfl
  obtain ⟨h6, _, h7, _⟩ := h5 0 hm
  exact ⟨rfl, hm, by rw [h1]; exact hm, h6, h7⟩

/-! ## The sound cache (C4) -/

theorem halt_and_free_music_calls (s : PingusSoundSDLMixer) :
    ∃ extra : List Call, (halt_and_free_music s).dev.calls = s.dev.calls ++ extra
      ∧ ∀ path, decode_results path extra = [] := by
  cases hm : s.m_music with
  | none =>
    rw [halt_and_free_music_of_none s hm]
    exact ⟨[], by simp, fun _ => rfl⟩
  | some music =>
    rw [halt_and_free_music_of_some s music hm]
    exact ⟨[Call.haltMusic, Call.freeMusic music], rfl, fun _ => rfl⟩

theorem real_play_music_calls (s : PingusSoundSDLMixer) (filename : String) (volume : Flt)
    (loop music_enabled load_ok play_ok : Bool) :
    (real_play_music s filename volume loop music_enabled load_ok play_ok).m_chunks = s.m_chunks
    ∧ ∃ extra : List Call,
        (real_play_music s filename volume loop music_enabled load_ok play_ok).dev.calls
          = s.dev.calls ++ extra
        ∧ ∀ path, decode_results path extra = [] := by
  obtain ⟨_, hch, _⟩ := halt_and_free_music_frame s
  obtain ⟨e0, he0, hd0⟩ := halt_and_free_music_calls s
  by_cases hg : (!music_enabled || s.m_master_volume.le (Flt.fin 0)) = true
  · rw [real_play_music_of_guarded _ _ _ _ _ _ _ hg]
    exact ⟨rfl, [], by simp, fun _ => rfl⟩
  · cases load_ok with
    | false =>
      rw [real_play_music_of_load_failed _ _ _ _ _ _ hg]
      refine ⟨hch, e0 ++ [Call.loadMUS filename none], ?_, ?_⟩
      · simp only [he0, List.append_assoc]
      · intro path
        rw [decode_results_append, hd0]
        rfl
    | true =>
      rw [real_play_music_of_loaded _ _ _ _ _ _ hg]
      refine ⟨hch, e0 ++
        [Call.loadMUS filename (some (halt_and_free_music s).dev.next_handle),
          Call.volume (-1) (to_mix_volume (s.m_sound_volume.mul s.m_master_volume)),
          Call.volumeMusic (to_mix_volume ((clamp01 volume).mul s.m_master_volume)),
          Call.playMusic (halt_and_free_music s).dev.next_handle (if loop then -1 else 1)
            play_ok], ?_, ?_⟩
      · simp only [he0, List.append_assoc]
      · intro path
        rw [decode_results_append, hd0]
        rfl

theorem load_chunk_keeps_cached (s : PingusSoundSDLMixer) (path p : String) (decode_ok : Bool)
    (chunk : Handle) (h : s.m_chunks.lookup path = some chunk) :
    (load_chunk s p decode_ok).2.m_chunks.lookup path = some chunk
    ∧ decode_results path (load_chunk s p decode_ok).2.dev.calls
        = decode_results path s.dev.calls := by
  cases hl : s.m_chunks.lookup p with
  | some cached =>
    rw [load_chunk_of_cached s p decode_ok cached hl]
    exact ⟨h, rfl⟩
  | none =>
    have hne : p ≠ path := by
      intro e
      rw [e, h] at hl
      cases hl
    have hb : (path == p) = false := by simpa using (fun e : path = p => hne e.symm)
    cases decode_ok with
    | false =>
      rw [load_chunk_of_failed s p hl]
      refine ⟨h, ?_⟩
      simp [decode_results_append, decode_results_singleton, hne]
    | true =>
      rw [load_chunk_of_decoded s p hl]
      refine ⟨?_, ?_⟩
      · simp [List.lookup_cons, hb, h]
      · simp [decode_results_append, decode_results_singleton, hne]

theorem load_chunk_caches (s : PingusSoundSDLMixer) (p : String) (decode_ok : Bool)
    (chunk : Handle) (h : (load_chunk s p decode_ok).1 = some chunk) :
    (load_chunk s p decode_ok).2.m_chunks.lookup p = some chunk := by
  cases hl : s.m_chunks.lookup p with
  | some cached =>
    rw [load_chunk_of_cached s p decode_ok cached hl] at h ⊢
    cases h
    exact hl
  | none =>
    cases decode_ok with
    | false =>
      rw [load_chunk_of_failed s p hl] at h
      cases h
    | true =>
      rw [load_chunk_of_decoded s p hl] at h ⊢
      cases h
      simp [List.lookup_cons]

theorem real_play_sound_keeps_cached (complete : String → String) (s : PingusSoundSDLMixer)
    (name : String) (volume panning : Flt) (sound_enabled decode_ok : Bool) (pick : Int)
    (path : String) (chunk : Handle) (h : s.m_chunks.lookup path = some chunk) :
    (real_play_sound complete s name volume panning sound_enabled decode_ok pick).m_chunks.lookup
        path = some chunk
    ∧ decode_results path
        (real_play_sound complete s name volume panning sound_enabled decode_ok pick).dev.calls
        = decode_results path s.dev.calls := by
  obtain ⟨k1, k2⟩ :=
    load_chunk_keeps_cached s path (complete ("sounds/" ++ name ++ ".wav")) decode_ok chunk h
  by_cases hg : (!sound_enabled || s.m_sound_volume.le (Flt.fin 0)
      || s.m_master_volume.le (Flt.fin 0)) = true
  · rw [real_play_sound_of_guarded _ _ _ _ _ _ _ _ hg]
    exact ⟨h, rfl⟩
  · rcases hl : load_chunk s (complete ("sounds/" ++ name ++ ".wav")) decode_ok with ⟨r, s1⟩
    rw [hl] at k1 k2
    simp only at k1 k2
    cases r with
    | none =>
      rw [real_play_sound_of_not_loaded _ _ _ _ _ _ _ _ _ hg hl]
      exact ⟨k1, k2⟩
    | some c =>
      by_cases hp : 0 ≤ pick ∧ pick < (s1.dev.channels.length : Int)
      · rw [real_play_sound_of_channel _ _ _ _ _ _ _ _ _ _ hg hl hp]
        refine ⟨k1, ?_⟩
        simp only [decode_results_append, k2]
        simp [decode_results]
      · rw [real_play_sound_of_no_channel _ _ _ _ _ _ _ _ _ _ hg hl hp]
        refine ⟨k1, ?_⟩
        simp only [decode_results_append, k2]
        simp [decode_results]

theorem step_keeps_cached (complete : String → String) (s : PingusSoundSDLMixer) (op : Op)
    (path : String) (chunk : Handle) (h : s.m_chunks.lookup path = some chunk) :
    (step complete s op).m_chunks.lookup path = some chunk
    ∧ decode_results path (step complete s op).dev.calls = decode_results path s.dev.calls := by
  cases op with
  | update delta => exact ⟨h, rfl⟩
  | play_sound name volume panning sound_enabled decode_ok pick =>
    exact real_play_sound_keeps_cached complete s name volume panning sound_enabled decode_ok
      pick path chunk h
  | play_music filename volume loop music_enabled load_ok play_ok =>
    obtain ⟨hch, extra, hcalls, hd⟩ :=
      real_play_music_calls s filename volume loop music_enabled load_ok play_ok
    simp only [step]
    rw [hch, hcalls, decode_results_append, hd, List.append_nil]
    exact ⟨h, rfl⟩
  | stop_music =>
    refine ⟨h, ?_⟩
    simp [step, real_stop_music, Mix_HaltMusic, decode_results_append, decode_results]
  | set_sound_volume volume =>
    refine ⟨h, ?_⟩
    simp [step, set_sound_volume, apply_volume_changes, Mix_Volume, Mix_VolumeMusic,
      decode_results_append, decode_results]
  | set_music_volume volume =>
    refine ⟨h, ?_⟩
    simp [step, set_music_volume, apply_volume_changes, Mix_Volume, Mix_VolumeMusic,
      decode_results_append, decode_results]
  | set_master_volume volume =>
    refine ⟨h, ?_⟩
    simp [step, set_master_volume, apply_volume_changes, Mix_Volume, Mix_VolumeMusic,
      decode_results_append, decode_results]

theorem run_keeps_cached (complete : String → String) (s : PingusSoundSDLMixer) (ops : List Op)
    (path : String) (chunk : Handle) (h : s.m_chunks.lookup path = some chunk) :
    (run complete s ops).m_chunks.lookup path = some chunk
    ∧ decode_results path (run complete s ops).dev.calls = decode_results path s.dev.calls := by
  induction ops generalizing s with
  | nil => exact ⟨h, rfl⟩
  | cons op ops ih =>
    obtain ⟨h1, h2⟩ := step_keeps_cached complete s op path chunk h
    obtain ⟨h3, h4⟩ := ih (step complete s op) h1
    exact ⟨h3, h4.trans h2⟩

theorem successes_le_one (k : Nat) (r : Option Handle) :
    ((List.replicate k (none : Option Handle) ++ (r.map some).toList).filter
      (fun x => x.isSome)).length ≤ 1 := by
  have h0 : (List.replicate k (none : Option Handle)).filter (fun x => x.isSome) = [] := by
    rw [List.filter_eq_nil_iff]
    intro a ha
    rw [List.eq_of_mem_replicate ha]
    simp
  rw [List.filter_append, h0]
  cases r <;> simp

/-- C4, as stated, fails: a decode that fails is not cached, so the decoder is invoked
again at the next request for the same path.  Two `play_sound("explosion")` requests on a
new adapter, the file failing to decode, call `Mix_LoadWAV` for the path twice. -/
theorem C4_failed_decode_is_repeated :
    decode_results "sounds/explosion.wav"
        (run plain_complete example_adapter example_failed_decodes).dev.calls = [none, none]
    ∧ (decode_results "sounds/explosion.wav"
        (run plain_complete example_adapter example_failed_decodes).dev.calls).length = 2
    ∧ (run plain_complete example_adapter example_failed_decodes).m_chunks = [] := by
  refine ⟨by decide!, by decide!, by decide!⟩

/-- C4, amended: after a successful construction and any sequence of requests, the
`Mix_LoadWAV` calls for a path are a number of failures followed by at most one success,
which is the handle the cache holds for the path; so each path is decoded successfully at
most once.  A request for a cached path is a cache hit: `load_chunk` returns the stored
handle and changes nothing, whatever the decoder would answer; a handle once obtained is
the one every later `load_chunk` returns; and a cached path stays cached, with no further
decode, over any further requests. -/
theorem C4_one_cached_decode_per_path (complete : String → String) (open_ok mod_ok : Bool)
    (s0 : PingusSoundSDLMixer) (ops : List Op) (path : String)
    (hc : construct open_ok mod_ok = Except.ok s0) :
    (∃ k : Nat,
        decode_results path (run complete s0 ops).dev.calls
          = List.replicate k none
            ++ (((run complete s0 ops).m_chunks.lookup path).map some).toList)
    ∧ ((decode_results path (run complete s0 ops).dev.calls).filter
          (fun r => r.isSome)).length ≤ 1
    ∧ (∀ (chunk : Handle) (decode_ok : Bool),
        (run complete s0 ops).m_chunks.lookup path = some chunk →
        load_chunk (run complete s0 ops) path decode_ok = (some chunk, run complete s0 ops))
    ∧ (∀ (chunk : Handle) (decode_ok again : Bool),
        (load_chunk (run complete s0 ops) path decode_ok).1 = some chunk →
        load_chunk (load_chunk (run complete s0 ops) path decode_ok).2 path again
          = (some chunk, (load_chunk (run complete s0 ops) path decode_ok).2))
    ∧ (∀ (chunk : Handle) (more : List Op),
        (run complete s0 ops).m_chunks.lookup path = some chunk →
        (run complete (run complete s0 ops) more).m_chunks.lookup path = some chunk
        ∧ decode_results path (run complete (run complete s0 ops) more).dev.calls
            = decode_results path (run complete s0 ops).dev.calls) := by
  have hs : Consistent (run complete s0 ops) := (Consistent.of_construct hc).after_run complete ops
  obtain ⟨k, hk⟩ := hs.decodes path
  refine ⟨⟨k, hk⟩, ?_, ?_, ?_, ?_⟩
  · rw [hk]
    exact successes_le_one k _
  · intro chunk decode_ok h
    exact load_chunk_of_cached _ path decode_ok chunk h
  · intro chunk decode_ok again h
    exact load_chunk_of_cached _ path again chunk (load_chunk_caches _ path decode_ok chunk h)
  · intro chunk more h
    exact run_keeps_cached complete _ more path chunk h

/-- C4 amended, at a concrete input: on a new adapter `play_sound("explosion")` with a
failing decode, then twice with a decode that would succeed: `Mix_LoadWAV` is called
twice for the path, failing and then returning handle 0, and the third request is a cache
hit. -/
theorem C4_one_cached_decode_per_path_witness :
    construct true true = Except.ok example_adapter
    ∧ decode_results "sounds/explosion.wav"
        (run plain_complete example_adapter
          [Op.play_sound "explosion" (Flt.fin 1) (Flt.fin 0) true false 0,
           Op.play_sound "explosion" (Flt.fin 1) (Flt.fin 0) true true 0,
           Op.play_sound "explosion" (Flt.fin 1) (Flt.fin 0) true true 1]).dev.calls
        = [none, some 0]
    ∧ ((decode_results "sounds/explosion.wav"
        (run plain_complete example_adapter
          [Op.play_sound "explosion" (Flt.fin 1) (Flt.fin 0) true false 0,
           Op.play_sound "explosion" (Flt.fin 1) (Flt.fin 0) true true 0,
           Op.play_sound "explosion" (Flt.fin 1) (Flt.fin 0) true true 1]).dev.calls).filter
          (fun r => r.isSome)).length ≤ 1 :=
  ⟨rfl, by decide!,
   (C4_one_cached_decode_per_path plain_complete true true example_adapter
      [Op.play_sound "explosion" (Flt.fin 1) (Flt.fin 0) true false 0,
       Op.play_sound "explosion" (Flt.fin 1) (Flt.fin 0) true true 0,
       Op.play_sound "explosion" (Flt.fin 1) (Flt.fin 0) true true 1]
      "sounds/explosion.wav" rfl).2.1⟩

end pingus.sound
